import Mathlib

/-!
Shallow embedding of the `eth-validator-watcher` sources
(`entrypoint.py`, `missed_attestations.py`, `models.py`,
`next_blocks_proposal.py`, `relays.py`, `rewards.py`) and proofs about them.

Effectful Python code is modelled as pure functions that return an
`Except PyErr` value (Python exceptions) together with a list of `Event`s
(console prints, Slack messages, Prometheus gauge/counter updates, outgoing
HTTP queries).  Python dicts are modelled either as association lists
(`alookup`, first match, used for dicts whose keys are unique) or as
functions `α → Option β` built by `fupdate` folds (later insert wins, exactly
like a Python dict comprehension).  Python floats are modelled as exact
rationals `ℚ`.
-/

deriving instance DecidableEq for Except

/-- Python exceptions that the embedded code can raise. -/
inductive PyErr where
  | keyError
  | typeError
  | valueError
  | attributeError
  | probeExn (msg : String)
  deriving DecidableEq

/-- Label dictionary attached to one watched validator (Python `dict[str, str]`). -/
abbrev Labels := List (String × String)

/-- The `our_labels` map: pubkey → labels (Python `dict[str, dict[str, str]]`). -/
abbrev LabelsMap := List (String × Labels)

/-- Observable side effects of the embedded code. -/
inductive Event where
  | printLine (msg : String)
  | slackMessage (msg : String)
  | gaugeSet (name : String) (value : ℚ)
  | counterInc (name : String) (labels : Labels) (amount : ℚ)
  | livenessQuery (epoch : Int) (indices : List Nat)
  | rewardsQuery (epoch : Int)
  | builderQuery (url : String)
  | httpServerStart (port : Nat)
  | futureBlocksCall (slot : Int)
  | missedAttRun (slot : Int)
  | rewardsRun (slot : Int)
  | countdownPrint (slot : Int)
  deriving DecidableEq

/-- First-match association-list lookup (Python dict access for dicts whose
keys are unique, e.g. the epoch windows and the labels map). -/
def alookup {α β : Type} [DecidableEq α] : List (α × β) → α → Option β
  | [], _ => none
  | p :: rest, k => if p.1 = k then some p.2 else alookup rest k

/-- Pointwise update of a functional dict; models one Python dict assignment
`d[k] = v` (later assignments win). -/
def fupdate {α β : Type} [DecidableEq α] (d : α → Option β) (k : α) (v : β) :
    α → Option β :=
  fun k' => if k' = k then some v else d k'

/-- Turn an `Option` into an `Except`, raising `e` on `none` (a Python dict
subscript `d[k]` raising `KeyError`, or `None.attr` raising). -/
def exceptOfOption {β : Type} (o : Option β) (e : PyErr) : Except PyErr β :=
  match o with
  | some b => .ok b
  | none => .error e

/-- `models.py`: `Validators.DataItem.Validator`. -/
structure Validator where
  pubkey : String
  effective_balance : Int
  slashed : Bool
  deriving DecidableEq

/-- An `{index → validator}` snapshot (one value of a `LimitedDict`). -/
abbrev VDict := List (Nat × Validator)

/-- `utils.LimitedDict` (epoch → snapshot), modelled as an association list;
`utils.py` is not part of the sources, but the dict interface used by the
sources (`in`, `[...]` with `KeyError` on a missing key) is standard. -/
abbrev Lim := List (Int × VDict)

/-- `LimitedDict.__getitem__` as an `Option` (callers turn `none` into
`KeyError`). -/
def limGet (w : Lim) (e : Int) : Option VDict := alookup w e

/-- Modelled from the spec: `utils.NB_SLOT_PER_EPOCH` (not under `src/`);
the spec's normative constants give `SLOTS_PER_EPOCH = 32`. -/
def NB_SLOT_PER_EPOCH : Int := 32

/-- Modelled from the spec: `utils.SLOT_FOR_MISSED_ATTESTATIONS_PROCESS`
(not under `src/`); the spec's normative constants give the value 16. -/
def SLOT_FOR_MISSED_ATTESTATIONS_PROCESS : Int := 16

/-- Modelled from the spec: `utils.SLOT_FOR_REWARDS_PROCESS` (not under
`src/`); the spec's normative constants give the value 16. -/
def SLOT_FOR_REWARDS_PROCESS : Int := 16

/-- `relays.py`: `RELAY_KEY`. -/
def RELAY_KEY : String := "mev_relay"

/-- A Python list comprehension whose element expression may raise: the
elements are produced left to right and the first exception propagates. -/
def exMapList {α β : Type} (f : α → Except PyErr β) : List α → Except PyErr (List β)
  | [] => .ok []
  | a :: rest =>
    match f a with
    | .error e => .error e
    | .ok b =>
      match exMapList f rest with
      | .error e => .error e
      | .ok tl => .ok (b :: tl)

/-- Look up the labels of every pubkey of a list in `our_labels`
(`labels = our_labels[pubkey]`, `KeyError` when absent). -/
def lookupLabelsList (our_labels : LabelsMap) (pubkeys : List String) :
    Except PyErr (List Labels) :=
  exMapList (fun pk => exceptOfOption (alookup our_labels pk) .keyError) pubkeys

/-- `index_to_validator[index].pubkey` for each index of a list
(`KeyError` when an index is missing from the snapshot). -/
def lookupPubkeys (d : VDict) (idxs : List Nat) : Except PyErr (List String) :=
  exMapList (fun i =>
    match alookup d i with
    | some v => .ok v.pubkey
    | none => .error .keyError) idxs

/-- `", ".join(pubkey[:10] for pubkey in pubkeys[:5])`. -/
def shortPubkeysStr (pubkeys : List String) : String :=
  String.intercalate ", " ((pubkeys.take 5).map (fun p => p.take 10))

/-- `missed_attestations.process_missed_attestations`
(`missed_attestations.py` lines 51-113).  The beacon call
`beacon.get_validators_liveness(beacon_type, epoch - 1, validators_index)`
is modelled by the oracle `liveness : epoch → indices → {index: bool}`;
`counterInit` tells whether `missed_attestations_per_validator_count`
has been initialised (is not `None`). -/
def process_missed_attestations
    (liveness : Int → List Nat → List (Nat × Bool))
    (w : Lim) (epoch : Int) (our_labels : LabelsMap) (counterInit : Bool) :
    Except PyErr (List Nat × List Event) :=
  if epoch < 1 then .ok ([], [])
  else
    match (match limGet w (epoch - 1) with
           | some d => some d
           | none => limGet w epoch) with
    | none => .error .keyError
    | some index_to_validator =>
      let validators_index := index_to_validator.map Prod.fst
      let validators_liveness := liveness (epoch - 1) validators_index
      let dead_indexes : List Nat :=
        (((validators_liveness.filter (fun p => p.2 = false)).map Prod.fst)).dedup
      let ev0 : List Event :=
        [.livenessQuery (epoch - 1) validators_index,
         .gaugeSet "missed_attestations_count" (dead_indexes.length : ℚ)]
      if dead_indexes = [] then .ok ([], ev0)
      else
        match lookupPubkeys index_to_validator dead_indexes with
        | .error e => .error e
        | .ok pubkeys =>
          let msg :=
            "🙁 Our validator " ++ shortPubkeysStr pubkeys ++ " and " ++
            toString ((dead_indexes.length : Int) - min 5 (pubkeys.length : Int)) ++
            " more missed attestation at epoch " ++ toString (epoch - 1)
          if counterInit ∧ our_labels.length > 0 then
            match lookupLabelsList our_labels pubkeys with
            | .error e => .error e
            | .ok ls =>
              .ok (dead_indexes, ev0 ++ [.printLine msg] ++
                ls.map (fun l =>
                  Event.counterInc "missed_attestations_per_validator_count" l 1))
          else .ok (dead_indexes, ev0 ++ [.printLine msg])

/-- `relays.py`: `RELAY_MAPPING` (the 6-entry url → display-name mapping). -/
def RELAY_MAPPING : List (String × String) :=
  [("https://0xa1559ace749633b997cb3fdacffb890aeebdb0f5a3b6aaa7eeeaf1a38af0a8fe88b9e4b1f61f236d2e64d95733327a62@relay.ultrasound.money", "ultra sound"),
   ("https://0x8b5d2e73e2a3a55c6c87b8b6eb92e0149a125c852751db1422fa951e42a09b82c142c3ea98d0d9930b056a3bc9896b8f@bloxroute.max-profit.blxrbdn.com", "BloXroute [Max-Profit]"),
   ("https://0xac6e77dfe25ecd6110b8e780608cce0dab71fdd5ebea22a16c0205200f2f8e2e3ad3b71d3499c54ad14d6c21b41a37ae@boost-relay.flashbots.net", "flashbots"),
   ("https://0xa7ab7a996c8584251c8f925da3170bdfd6ebc75d50f5ddc4050a6fdc77f2a3b5fce2cc750d0865e05d7228af97d69561@agnostic-relay.net", "Agnostic Gnosis"),
   ("https://0xb0b07cd0abef743db4260b0ed50619cf6ad4d82064cb4fbec9d3ec530f7c5e6793d9f286c4e082c0244ffb9f2658fe88@bloxroute.regulated.blxrbdn.com", "BloXroute [Regulated]"),
   ("https://0xa15b52576bcbf1072f4a011c0f99f9fb6c66f3e1ff321f11f461d15e31b1cb359caa092c71bbded0bae5b5ea401aab7e@aestus.live", "Aestus")]

/-- `models.py`: `ProposerPayloadDelivered`. -/
structure ProposerPayloadDelivered where
  slot : Int
  value : Int
  proposer_pubkey : String
  deriving DecidableEq

/-- `models.py`: `ProposerDuties.Data`. -/
structure ProposerDuty where
  pubkey : String
  validator_index : Nat
  slot : Int
  deriving DecidableEq

/-- `models.py`: `RelayBuilderValidator` (`entryPubkey` is
`entry.message.pubkey`). -/
structure RelayBuilderValidator where
  slot : Int
  validator_index : Nat
  entryPubkey : String
  deriving DecidableEq

/-- `relays.py` line 94/111: the "unknown builder" log line. -/
def unknownBuilderMsg : String :=
  "🟧 Block proposed with unknown builder (may be a locally built block)"

/-- The `for relay_url in self.__urls` loop of the labelled branch of
`Relays.process` (`relays.py` lines 97-107), with its `known_builder`
flag and the counter increments it emits.  The
`__proposer_payload_delivered`/`__is_proposer_payload_delivered` HTTP calls
are modelled by the oracle `payloadResp : url → slot → Option payload`
(`none` = the relay returned an empty list for the slot); `counterInit`
tells whether `our_mev_boost_reward_per_validator_count` is initialised
(`None.labels` raises `AttributeError`).  `payload.value / 10 ** 9` (a
Python float) is modelled as an exact rational. -/
def Relays.processLoop
    (payloadResp : String → Int → Option ProposerPayloadDelivered)
    (slot : Int) (our_labels : LabelsMap) (counterInit : Bool) :
    List String → Bool → List Event → Except PyErr (Bool × List Event)
  | [], known_builder, evs => .ok (known_builder, evs)
  | relay_url :: rest, known_builder, evs =>
    match payloadResp relay_url slot with
    | none => Relays.processLoop payloadResp slot our_labels counterInit rest known_builder evs
    | some payload =>
      match alookup our_labels payload.proposer_pubkey with
      | none => .error .keyError
      | some labels =>
        match alookup RELAY_MAPPING relay_url with
        | none => .error .keyError
        | some relayName =>
          if counterInit then
            Relays.processLoop payloadResp slot our_labels counterInit rest true
              (evs ++ [Event.counterInc "our_mev_boost_reward_per_validator_count"
                (labels ++ [(RELAY_KEY, relayName)])
                ((payload.value : ℚ) / 10 ^ 9)])
          else .error .attributeError

/-- `Relays.process` (`relays.py` lines 76-112), continued: the two
branches on `len(our_labels)`; the `for relay_url in self.__urls` loop of
the labelled branch is `Relays.processLoop` above. -/
def Relays.process (urls : List String)
    (payloadResp : String → Int → Option ProposerPayloadDelivered)
    (slot : Int) (our_labels : LabelsMap) (counterInit : Bool) :
    Except PyErr (List Event) :=
  if urls.length = 0 then .ok []
  else if our_labels.length = 0 then
    if ¬ urls.any (fun u => (payloadResp u slot).isSome) then
      .ok [.counterInc "bad_relay_count" [] 1, .printLine unknownBuilderMsg]
    else .ok []
  else
    match Relays.processLoop payloadResp slot our_labels counterInit urls false [] with
    | .error e => .error e
    | .ok (known_builder, evs) =>
      if ¬ known_builder then
        .ok (evs ++ [.counterInc "bad_relay_count" [] 1, .printLine unknownBuilderMsg])
      else .ok evs

/-- `relays.py` lines 130-131: the `registrations[item.slot] = False`
initialisation loop. -/
def buildRegistrations : List ProposerDuty → (Int → Option Bool) → (Int → Option Bool)
  | [], d => d
  | item :: rest, d => buildRegistrations rest (fupdate d item.slot false)

/-- `relays.py` lines 130-132: the `pubkeys[item.slot] = item.pubkey`
initialisation loop. -/
def buildSlotPubkeys : List ProposerDuty → (Int → Option String) → (Int → Option String)
  | [], d => d
  | item :: rest, d => buildSlotPubkeys rest (fupdate d item.slot item.pubkey)

/-- `relays.py` lines 140-142: the `for item in relay_data` loop marking a
slot registered when the relay lists its `(slot, pubkey)` pair. -/
def regApplyRelayData (pubkeys : Int → Option String) :
    List RelayBuilderValidator → (Int → Option Bool) → (Int → Option Bool)
  | [], r => r
  | item :: rest, r =>
    regApplyRelayData pubkeys rest
      (if (r item.slot).isSome ∧ pubkeys item.slot = some item.entryPubkey
       then fupdate r item.slot true else r)

/-- `relays.py` lines 133-142: the `for relay_url in self.__urls` loop;
a `RetryError` is logged and the relay skipped (`continue`). -/
def regRelayLoop (builderResp : String → Except Unit (List RelayBuilderValidator))
    (pubkeys : Int → Option String) :
    List String → (Int → Option Bool) → List Event →
    ((Int → Option Bool) × List Event)
  | [], r, evs => (r, evs)
  | relay_url :: rest, r, evs =>
    match builderResp relay_url with
    | .error _ =>
      regRelayLoop builderResp pubkeys rest r
        (evs ++ [.builderQuery relay_url,
                 .printLine ("⚠️ Cannot contact relay " ++ relay_url)])
    | .ok relay_data =>
      regRelayLoop builderResp pubkeys rest
        (regApplyRelayData pubkeys relay_data r)
        (evs ++ [.builderQuery relay_url])

/-- `Relays.check_validator_registration_for_slots` (`relays.py` lines
114-147).  The one `__builder_validators` HTTP call per relay is modelled
by the oracle `builderResp : url → Except RetryError data`; one
`builderQuery` event is recorded per call.  Returns the proposals
registered with no relay together with the emitted events. -/
def check_validator_registration_for_slots (urls : List String)
    (builderResp : String → Except Unit (List RelayBuilderValidator))
    (slot_proposals : List ProposerDuty) : List ProposerDuty × List Event :=
  if slot_proposals.length = 0 then ([], [])
  else
    let registrations := buildRegistrations slot_proposals (fun _ => none)
    let pubkeys := buildSlotPubkeys slot_proposals (fun _ => none)
    let res := regRelayLoop builderResp pubkeys urls registrations []
    (slot_proposals.filter (fun item => res.1 item.slot = some false), res.2)

/-- `next_blocks_proposal.process_future_blocks_proposal`
(`next_blocks_proposal.py` lines 19-73).  The two
`beacon.get_proposer_duties` calls are modelled by the lists
`duties_cur`/`duties_next`.  When `is_new_epoch` holds, some of our
validators are upcoming proposers and the labels map is non-empty, the
source calls `relays.check_validator_registration_for_slots` with **two**
positional arguments although the method accepts only one
(`next_blocks_proposal.py` line 65 vs `relays.py` line 114), which raises
`TypeError` at the call; the embedding returns that error. -/
def process_future_blocks_proposal (duties_cur duties_next : List ProposerDuty)
    (our_pubkeys : List String) (slot : Int) (is_new_epoch : Bool)
    (our_labels : LabelsMap) : Except PyErr (Nat × List Event) :=
  let concatenated_data := duties_cur ++ duties_next
  let filtered := concatenated_data.filter
    (fun item => our_pubkeys.contains item.pubkey ∧ slot ≤ item.slot)
  let ev0 : List Event :=
    [.gaugeSet "future_block_proposals_count" (filtered.length : ℚ)]
  let printEvs : List Event :=
    if is_new_epoch then
      filtered.map (fun item =>
        .printLine ("💍 Our validator " ++ item.pubkey.take 10 ++
          " is going to propose a block at   slot " ++ toString item.slot ++
          " (in " ++ toString (item.slot - slot) ++ " slots)"))
    else []
  if is_new_epoch ∧ filtered.length > 0 ∧ our_labels.length > 0 then
    let filtered_in_current_epoch := duties_cur.filter
      (fun item => our_pubkeys.contains item.pubkey)
    if filtered_in_current_epoch.length > 0 then .error .typeError
    else .ok (filtered.length, ev0 ++ printEvs)
  else .ok (filtered.length, ev0 ++ printEvs)

/-- `models.py`: `Rewards.Data.IdealReward`. -/
structure IdealReward where
  effective_balance : Int
  source : Int
  target : Int
  head : Int
  deriving DecidableEq

/-- `models.py`: `Rewards.Data.TotalReward`. -/
structure TotalReward where
  validator_index : Nat
  source : Int
  target : Int
  head : Int
  deriving DecidableEq

/-- `models.py`: `Rewards.Data`. -/
structure RewardsData where
  ideal_rewards : List IdealReward
  total_rewards : List TotalReward
  deriving DecidableEq

/-- `rewards.py`: `Reward = Tuple[int, int, int]` (source, target, head). -/
abbrev Reward := Int × Int × Int

/-- Accumulator recursion for the `effective_balance → ideal reward` dict
comprehension (later rows win, as in a Python dict). -/
def buildIdealDict : List IdealReward → (Int → Option Reward) → (Int → Option Reward)
  | [], m => m
  | r :: rest, m =>
    buildIdealDict rest (fupdate m r.effective_balance (r.source, r.target, r.head))

/-- Accumulator recursion for the `validator_index → actual reward` dict
comprehension. -/
def buildActualDict : List TotalReward → (Nat → Option Reward) → (Nat → Option Reward)
  | [], m => m
  | r :: rest, m =>
    buildActualDict rest (fupdate m r.validator_index (r.source, r.target, r.head))

/-- `rewards.py` lines 291-294: the `effective_balance → ideal reward` dict
comprehension. -/
def effBalanceToIdealReward (data : RewardsData) : Int → Option Reward :=
  buildIdealDict data.ideal_rewards (fun _ => none)

/-- `rewards.py` lines 296-299: the `validator_index → actual reward` dict
comprehension. -/
def indexToActualReward (data : RewardsData) : Nat → Option Reward :=
  buildActualDict data.total_rewards (fun _ => none)

/-- Result tuple of `rewards._process_validator`. -/
structure RewardItem where
  pubkey : String
  ideal : Reward
  actual : Reward
  areIdeal : Bool × Bool × Bool
  deriving DecidableEq

/-- `rewards._process_validator` (`rewards.py` lines 457-471). -/
def _process_validator (pubkey : String) (ideal_reward actual_reward : Reward) :
    RewardItem :=
  { pubkey := pubkey
    ideal := ideal_reward
    actual := actual_reward
    areIdeal := (actual_reward.1 = ideal_reward.1,
                 actual_reward.2.1 = ideal_reward.2.1,
                 actual_reward.2.2 = ideal_reward.2.2) }

/-- The network pass's item list (`rewards.py` lines 301-310): a validator
is skipped unless its index has a row in `total_rewards` and its effective
balance a row in `ideal_rewards`; inside the guard the two dict subscripts
are kept as fallible lookups (`KeyError` on a missing key). -/
def netRewardItems (data : RewardsData) (net_index_to_validator : VDict) :
    Except PyErr (List RewardItem) :=
  exMapList
    (fun p =>
      match effBalanceToIdealReward data p.2.effective_balance with
      | none => .error .keyError
      | some ideal =>
        match indexToActualReward data p.1 with
        | none => .error .keyError
        | some actual => .ok (_process_validator p.2.pubkey ideal actual))
    (net_index_to_validator.filter
      (fun p => (indexToActualReward data p.1).isSome ∧
                (effBalanceToIdealReward data p.2.effective_balance).isSome))

/-- The watched-set pass's item list (`rewards.py` lines 387-394): the same
two dict subscripts as the network pass, with no guard. -/
def ourRewardItems (data : RewardsData) (our_index_to_validator : VDict) :
    Except PyErr (List RewardItem) :=
  exMapList
    (fun p =>
      match effBalanceToIdealReward data p.2.effective_balance with
      | none => .error .keyError
      | some ideal =>
        match indexToActualReward data p.1 with
        | none => .error .keyError
        | some actual => .ok (_process_validator p.2.pubkey ideal actual))
    our_index_to_validator

/-- Count of `true` entries, as `sum(list_of_bools)` in Python. -/
def countTrue (l : List Bool) : Nat := (l.filter (fun b => b)).length

/-- Python's `f"{rate:.2%}"`, up to the final float rounding step: the rate
is rendered as a percentage with two decimal places (exact-rational
approximation of the float formatting). -/
def pctRepr (q : ℚ) : String :=
  let n : Int := ⌊q * 10000 + 1 / 2⌋
  let frac : Int := n % 100
  toString (n / 100) ++ "." ++
  (if frac < 10 then "0" else "") ++ toString frac ++ "%"

/-- `rewards._validator_counters_update` (`rewards.py` lines 184-195).
The positive/negative counter objects are modelled by their metric-name
options (`none` = the Python global is `None`; calling `.labels` on `None`
raises `AttributeError`). -/
def _validator_counters_update (counter_pos counter_neg : Option String)
    (pub_keys : List String) (values : List Int) (labels_dict : LabelsMap) :
    Except PyErr (List Event) :=
  if counter_pos = none ∨ labels_dict.length = 0 then .ok []
  else exMapList
    (fun (pv : String × Int) =>
      match alookup labels_dict pv.1 with
      | none => .error .keyError
      | some labels =>
        match (if 0 ≤ pv.2 then counter_pos else counter_neg) with
        | none => .error .attributeError
        | some cname => .ok (Event.counterInc cname labels ((|pv.2| : Int) : ℚ)))
    (List.zip pub_keys values)

/-- Four-way zip, as Python `zip(a, b, c, d)`. -/
def zip4 {α β γ δ : Type} : List α → List β → List γ → List δ →
    List (α × β × γ × δ)
  | a :: as, b :: bs, c :: cs, d :: ds => (a, b, c, d) :: zip4 as bs cs ds
  | _, _, _, _ => []

/-- `rewards._validator_summary_counters_update` (`rewards.py` lines
198-211). -/
def _validator_summary_counters_update (counter_pos counter_neg : Option String)
    (pub_keys : List String) (sources targets heads : List Int)
    (labels_dict : LabelsMap) : Except PyErr (List Event) :=
  if counter_pos = none ∨ labels_dict.length = 0 then .ok []
  else exMapList
    (fun (pv : String × Int × Int × Int) =>
      match alookup labels_dict pv.1 with
      | none => .error .keyError
      | some labels =>
        let value := pv.2.1 + pv.2.2.1 + pv.2.2.2
        match (if 0 ≤ value then counter_pos else counter_neg) with
        | none => .error .attributeError
        | some cname => .ok (Event.counterInc cname labels ((|value| : Int) : ℚ)))
    (zip4 pub_keys sources targets heads)

/-- Lexicographic string sort, as Python `sorted` on strings. -/
def sortedStrings (l : List String) : List String :=
  l.mergeSort (fun a b => decide (a ≤ b))

/-- `rewards._log` (`rewards.py` lines 214-241). -/
def rewards_log (pubkeys : List String) (are_ideal : List Bool)
    (suboptimal_rate : ℚ) (epoch : Int) (picto label : String) : List Event :=
  let not_perfect_pubkeys :=
    (((List.zip pubkeys are_ideal).filter (fun p => p.2 = false)).map Prod.fst).dedup
  if not_perfect_pubkeys.length > 0 then
    let first_not_perfect := (sortedStrings not_perfect_pubkeys).take 5
    let short_str := String.intercalate ", " (first_not_perfect.map (fun p => p.take 10))
    let diff := (not_perfect_pubkeys.length : Int) - first_not_perfect.length
    [.printLine (picto ++ " Our validator " ++ short_str ++ " and " ++
      toString diff ++ " more had not ideal rewards on " ++ label ++
      " at epoch " ++ toString (epoch - 2) ++ " (" ++ pctRepr suboptimal_rate ++ ")")]
  else []

/-- The aggregate counter/gauge events of one pass of `process_rewards`
(`rewards.py` lines 324-356 for the network pass, 404-436 for the watched
pass, which differ only in the metric-name prefix).  `items` is the pass's
item list (known non-empty when this runs). -/
def rewardAggregateEvents (prefixName : String) (items : List RewardItem) :
    List Event :=
  let total_ideal_sources := (items.map (fun it => it.ideal.1)).sum
  let total_ideal_targets := (items.map (fun it => it.ideal.2.1)).sum
  let total_ideal_heads := (items.map (fun it => it.ideal.2.2)).sum
  let total_actual_sources := (items.map (fun it => it.actual.1)).sum
  let total_actual_targets := (items.map (fun it => it.actual.2.1)).sum
  let total_actual_heads := (items.map (fun it => it.actual.2.2)).sum
  let n := items.length
  let suboptimal_sources_rate : ℚ :=
    1 - (countTrue (items.map (fun it => it.areIdeal.1)) : ℚ) / n
  let suboptimal_targets_rate : ℚ :=
    1 - (countTrue (items.map (fun it => it.areIdeal.2.1)) : ℚ) / n
  let suboptimal_heads_rate : ℚ :=
    1 - (countTrue (items.map (fun it => it.areIdeal.2.2)) : ℚ) / n
  [.counterInc (prefixName ++ "_ideal_sources_count") [] (total_ideal_sources : ℚ),
   .counterInc (prefixName ++ "_ideal_targets_count") [] (total_ideal_targets : ℚ),
   .counterInc (prefixName ++ "_ideal_heads_count") [] (total_ideal_heads : ℚ),
   .counterInc (if 0 ≤ total_actual_sources
     then prefixName ++ "_actual_pos_sources_count"
     else prefixName ++ "_actual_neg_sources_count") [] ((|total_actual_sources| : Int) : ℚ),
   .counterInc (if 0 ≤ total_actual_targets
     then prefixName ++ "_actual_pos_targets_count"
     else prefixName ++ "_actual_neg_targets_count") [] ((|total_actual_targets| : Int) : ℚ),
   .counterInc (prefixName ++ "_actual_heads_count") [] (total_actual_heads : ℚ),
   .gaugeSet (prefixName ++ "_suboptimal_sources_rate") suboptimal_sources_rate,
   .gaugeSet (prefixName ++ "_suboptimal_targets_rate") suboptimal_targets_rate,
   .gaugeSet (prefixName ++ "_suboptimal_heads_rate") suboptimal_heads_rate]

/-- `rewards.process_rewards` (`rewards.py` lines 244-454).  The two
`beacon.get_rewards` calls are modelled by the oracle
`get_rewards : epoch → optional index filter → data`; `countersInit`
tells whether the per-validator reward counters are initialised.
Unpacking `zip(*items)` into four variables raises `ValueError` when
`items` is empty. -/
def process_rewards (get_rewards : Int → Option (List Nat) → RewardsData)
    (epoch : Int) (net_w our_w : Lim) (our_labels : LabelsMap)
    (countersInit : Bool) : Except PyErr (List Event) :=
  if epoch < 2 then .ok []
  else do
    let net_index_to_validator ←
      match limGet net_w (epoch - 2) with
      | some d => .ok d
      | none =>
        match limGet net_w (epoch - 1) with
        | some d => .ok d
        | none => exceptOfOption (limGet net_w epoch) .keyError
    if net_index_to_validator.length = 0 then .ok []
    else do
      let data := get_rewards (epoch - 2) none
      let evNetQuery : List Event := [.rewardsQuery (epoch - 2)]
      let items ← netRewardItems data net_index_to_validator
      if items.length = 0 then .error .valueError
      else do
        let netEvents := rewardAggregateEvents "net" items
        let our_index_to_validator ←
          match limGet our_w (epoch - 2) with
          | some d => .ok d
          | none =>
            match limGet our_w (epoch - 1) with
            | some d => .ok d
            | none => exceptOfOption (limGet our_w epoch) .keyError
        let our_indexes := our_index_to_validator.map Prod.fst
        if our_indexes.length = 0 then .ok (evNetQuery ++ netEvents)
        else do
          let data2 := get_rewards (epoch - 2) (some our_indexes)
          let evOurQuery : List Event := [.rewardsQuery (epoch - 2)]
          let items2 ← ourRewardItems data2 our_index_to_validator
          if items2.length = 0 then .error .valueError
          else do
            let ourEvents := rewardAggregateEvents "our" items2
            let pubkeys := items2.map (fun it => it.pubkey)
            let ideal_sources := items2.map (fun it => it.ideal.1)
            let ideal_targets := items2.map (fun it => it.ideal.2.1)
            let ideal_heads := items2.map (fun it => it.ideal.2.2)
            let actual_sources := items2.map (fun it => it.actual.1)
            let actual_targets := items2.map (fun it => it.actual.2.1)
            let actual_heads := items2.map (fun it => it.actual.2.2)
            let n := items2.length
            let subSources : ℚ :=
              1 - (countTrue (items2.map (fun it => it.areIdeal.1)) : ℚ) / n
            let subTargets : ℚ :=
              1 - (countTrue (items2.map (fun it => it.areIdeal.2.1)) : ℚ) / n
            let subHeads : ℚ :=
              1 - (countTrue (items2.map (fun it => it.areIdeal.2.2)) : ℚ) / n
            let cOpt := fun (s : String) =>
              if countersInit then some s else (none : Option String)
            let e1 ← _validator_counters_update
              (cOpt "our_ideal_sources_per_validator_count") none
              pubkeys ideal_sources our_labels
            let e2 ← _validator_counters_update
              (cOpt "our_ideal_targets_per_validator_count") none
              pubkeys ideal_targets our_labels
            let e3 ← _validator_counters_update
              (cOpt "our_ideal_heads_per_validator_count") none
              pubkeys ideal_heads our_labels
            let e4 ← _validator_counters_update
              (cOpt "our_actual_pos_sources_per_validator_count")
              (cOpt "our_actual_neg_sources_per_validator_count")
              pubkeys actual_sources our_labels
            let e5 ← _validator_counters_update
              (cOpt "our_actual_pos_targets_per_validator_count")
              (cOpt "our_actual_neg_targets_per_validator_count")
              pubkeys actual_targets our_labels
            let e6 ← _validator_counters_update
              (cOpt "our_actual_heads_per_validator_count") none
              pubkeys actual_heads our_labels
            let e7 ← _validator_summary_counters_update
              (cOpt "our_ideal_attestations_reward_per_validator_count") none
              pubkeys ideal_sources ideal_targets ideal_heads our_labels
            let e8 ← _validator_summary_counters_update
              (cOpt "our_actual_pos_attestations_reward_per_validator_count")
              (cOpt "our_actual_neg_attestations_reward_per_validator_count")
              pubkeys actual_sources actual_targets actual_heads our_labels
            let logs :=
              rewards_log pubkeys (items2.map (fun it => it.areIdeal.1))
                subSources epoch "🚰" "source" ++
              rewards_log pubkeys (items2.map (fun it => it.areIdeal.2.1))
                subTargets epoch "🎯" "target" ++
              rewards_log pubkeys (items2.map (fun it => it.areIdeal.2.2))
                subHeads epoch "👤" "head "
            .ok (evNetQuery ++ netEvents ++ evOurQuery ++ ourEvents ++
                 e1 ++ e2 ++ e3 ++ e4 ++ e5 ++ e6 ++ e7 ++ e8 ++ logs)

/-- Spec-side (refinement) definition for the upcoming-proposer
registration check: a duty is listed by some relay iff some configured
relay's successful `/relay/v1/builder/validators` response contains the
duty's `(slot, pubkey)` pair.  (This follows the spec's words; it is the
standard against which `check_validator_registration_for_slots` is
compared.) -/
def listedByAnyRelay (urls : List String)
    (builderResp : String → Except Unit (List RelayBuilderValidator))
    (d : ProposerDuty) : Bool :=
  urls.any (fun url =>
    match builderResp url with
    | .error _ => false
    | .ok entries =>
      entries.any (fun e => e.slot == d.slot && e.entryPubkey == d.pubkey))

/-- The missed-attestations gate of the slot loop (`entrypoint.py` lines
407-413): run iff `slot_in_epoch >= SLOT_FOR_MISSED_ATTESTATIONS_PROCESS`
and the probe has not already run for this epoch. -/
def missed_att_gate (slot : Int) (lastE : Option Int) : Bool :=
  decide (SLOT_FOR_MISSED_ATTESTATIONS_PROCESS ≤ slot % NB_SLOT_PER_EPOCH) &&
  (lastE.isNone || !(lastE == some (slot / NB_SLOT_PER_EPOCH)))

/-- The rewards gate of the slot loop (`entrypoint.py` lines 433-437). -/
def rewards_gate (slot : Int) (lastE : Option Int) : Bool :=
  decide (SLOT_FOR_REWARDS_PROCESS ≤ slot % NB_SLOT_PER_EPOCH) &&
  (lastE.isNone || !(lastE == some (slot / NB_SLOT_PER_EPOCH)))

/-- The slots at which the missed-attestations probe runs, over a trace of
slots: the gate recursion of `entrypoint.py` lines 407-413 together with
the update `last_missed_attestations_process_epoch = epoch` of line 431. -/
def missed_att_runs : List Int → Option Int → List Int
  | [], _ => []
  | s :: rest, lastE =>
    if missed_att_gate s lastE then
      s :: missed_att_runs rest (some (s / NB_SLOT_PER_EPOCH))
    else missed_att_runs rest lastE

/-- Per-slot input of the slot-loop model: the slot number produced by the
iterator, whether the epoch-boundary pubkey reload raises
(`entrypoint.py` lines 308-312), and whether some probe of this iteration
raises (the loop body has no exception handler, so the concrete raise
site within the iteration is immaterial). -/
structure SlotOracle where
  slot : Int
  pubkeysInvalid : Bool
  probeErr : Option PyErr
  deriving DecidableEq

/-- Loop state of `_handler` (`entrypoint.py` lines 270-278), restricted to
the fields the verified claims are about, plus ghost instrumentation
(`processedSlots`, `events`). -/
structure LoopState where
  lastMissedAttEpoch : Option Int
  lastRewardsEpoch : Option Int
  prevEpoch : Option Int
  serverStarted : Bool
  processedSlots : List Int
  events : List Event
  deriving DecidableEq

/-- The initial loop state (`entrypoint.py` lines 270-274). -/
def initLoopState : LoopState :=
  { lastMissedAttEpoch := none
    lastRewardsEpoch := none
    prevEpoch := none
    serverStarted := false
    processedSlots := []
    events := [] }

/-- One iteration of the slot loop of `_handler` (`entrypoint.py` lines
278-505).  A negative slot prints the countdown and `continue`s (lines
279-294) — in particular it skips the `if idx == 0: start_http_server(8000)`
at lines 504-505.  A raised exception (pubkey validation at the epoch
boundary, or any probe exception) propagates: the loop body contains no
`try`/`except`. -/
def slotIter (o : SlotOracle) (idx : Nat) (st : LoopState) :
    Except PyErr LoopState :=
  if o.slot < 0 then
    .ok { st with events := st.events ++ [.countdownPrint o.slot] }
  else
    let epoch := o.slot / NB_SLOT_PER_EPOCH
    let is_new_epoch := st.prevEpoch.isNone || !(st.prevEpoch == some epoch)
    if is_new_epoch ∧ o.pubkeysInvalid then .error .typeError
    else
      match o.probeErr with
      | some e => .error e
      | none =>
        let ranMA := missed_att_gate o.slot st.lastMissedAttEpoch
        let lastMA := if ranMA then some epoch else st.lastMissedAttEpoch
        let ranRw := rewards_gate o.slot st.lastRewardsEpoch
        let lastRw := if ranRw then some epoch else st.lastRewardsEpoch
        let evs := st.events ++
          (if ranMA then [Event.missedAttRun o.slot] else []) ++
          (if ranRw then [Event.rewardsRun o.slot] else []) ++
          [Event.futureBlocksCall o.slot] ++
          (if idx = 0 then [Event.httpServerStart 8000] else [])
        .ok { lastMissedAttEpoch := lastMA
              lastRewardsEpoch := lastRw
              prevEpoch := some epoch
              serverStarted := st.serverStarted || idx = 0
              processedSlots := st.processedSlots ++ [o.slot]
              events := evs }

/-- The slot loop of `_handler` (`entrypoint.py` line 278): iterate
`slotIter` over the slots yielded by `utils.slots`, with `idx` the
`enumerate` counter; an exception raised by an iteration propagates (there
is no handler around the loop body; only `KeyboardInterrupt` is caught,
outside `_handler`). -/
def runLoop : List SlotOracle → Nat → LoopState → Except PyErr LoopState
  | [], _, st => .ok st
  | o :: rest, idx, st =>
    match slotIter o idx st with
    | .error e => .error e
    | .ok st' => runLoop rest (idx + 1) st'

/-- `missed_attestations.process_double_missed_attestations`
(`missed_attestations.py` lines 116-183).  `slackOn` tells whether a Slack
client is configured; `counterInit` whether
`double_missed_attestations_per_validator_count` is initialised. -/
def process_double_missed_attestations
    (dead_indexes previous_dead_indexes : List Nat)
    (w : Lim) (epoch : Int) (slackOn : Bool) (our_labels : LabelsMap)
    (counterInit : Bool) :
    Except PyErr (List Nat × List Event) :=
  if epoch < 2 then .ok ([], [])
  else
    let double_dead_indexes := dead_indexes.inter previous_dead_indexes
    let ev0 : List Event :=
      [.gaugeSet "double_missed_attestations_count" (double_dead_indexes.length : ℚ)]
    if double_dead_indexes = [] then .ok ([], ev0)
    else
      match limGet w (epoch - 1) with
      | none => .error .keyError
      | some index_to_validator =>
        match lookupPubkeys index_to_validator double_dead_indexes with
        | .error e => .error e
        | .ok pubkeys =>
          let nMore :=
            toString ((double_dead_indexes.length : Int) - min 5 (pubkeys.length : Int))
          let message_console :=
            "😱 Our validator " ++ shortPubkeysStr pubkeys ++ " and " ++ nMore ++
            " more missed 2 attestations in a row from epoch " ++ toString (epoch - 2)
          let slackEvs : List Event :=
            if slackOn then
              [.slackMessage
                ("😱 Our validator `" ++ shortPubkeysStr pubkeys ++ "` and `" ++ nMore ++
                 "` more missed 2 attestations in a row from epoch `" ++
                 toString (epoch - 2) ++ "`")]
            else []
          if counterInit ∧ our_labels.length > 0 then
            match lookupLabelsList our_labels pubkeys with
            | .error e => .error e
            | .ok ls =>
              .ok (double_dead_indexes,
                   ev0 ++ [.printLine message_console] ++ slackEvs ++
                   ls.map (fun l =>
                     Event.counterInc "double_missed_attestations_per_validator_count" l 1))
          else
            .ok (double_dead_indexes,
                 ev0 ++ [.printLine message_console] ++ slackEvs)

/-- Expected MEV-boost counter increments of `Relays.process` in the
labelled branch, one per relay returning a delivered payload: the
per-validator counter labelled with the payload proposer's labels plus the
relay's display name, incremented by `value / 1e9` (characterisation used
in statements; the `getD` defaults are only reached when a lookup fails,
which the theorems' hypotheses exclude). -/
def mevIncsOf (payloadResp : String → Int → Option ProposerPayloadDelivered)
    (slot : Int) (our_labels : LabelsMap) (urls : List String) : List Event :=
  urls.filterMap (fun url =>
    (payloadResp url slot).map (fun p =>
      Event.counterInc "our_mev_boost_reward_per_validator_count"
        ((alookup our_labels p.proposer_pubkey).getD [] ++
         [(RELAY_KEY, (alookup RELAY_MAPPING url).getD "")])
        ((p.value : ℚ) / 10 ^ 9)))

/-! ## Helper lemmas -/

theorem slotIter_ok_serverStarted {o : SlotOracle} {idx : Nat} {st st' : LoopState}
    (hidx : idx ≠ 0) (h : slotIter o idx st = .ok st') :
    st'.serverStarted = st.serverStarted := by
  unfold slotIter at h
  split at h
  · cases h
    rfl
  · split at h
    · dsimp only at h
      split at h
      · cases h
      · cases h
    · dsimp only at h
      split at h
      · cases h
      · cases h
        simp [hidx]

theorem runLoop_serverStarted_of_ne_zero :
    ∀ (os : List SlotOracle) (idx : Nat) (st st' : LoopState), idx ≠ 0 →
      runLoop os idx st = .ok st' → st'.serverStarted = st.serverStarted := by
  intro os
  induction os with
  | nil =>
    intro idx st st' _ h
    simp only [runLoop] at h
    rw [Except.ok.injEq] at h
    subst h
    rfl
  | cons o rest ih =>
    intro idx st st' hidx h
    simp only [runLoop] at h
    cases hs : slotIter o idx st with
    | error e => rw [hs] at h; cases h
    | ok st1 =>
      rw [hs] at h
      exact (ih (idx + 1) st1 st' (Nat.succ_ne_zero idx) h).trans
        (slotIter_ok_serverStarted hidx hs)

/-! ## Claim theorems -/

/-- Claim C6: `process_missed_attestations` returns the empty set for every
epoch `< 1`, and `process_double_missed_attestations` returns the empty set
and `process_rewards` returns for every epoch `< 2`, in all cases emitting
no event (no beacon query, no metric change). -/
theorem c6_early_epoch_guards :
    (∀ (liveness : Int → List Nat → List (Nat × Bool)) (w : Lim) (epoch : Int)
        (labels : LabelsMap) (ci : Bool), epoch < 1 →
      process_missed_attestations liveness w epoch labels ci = .ok ([], [])) ∧
    (∀ (dead prev : List Nat) (w : Lim) (epoch : Int) (slackOn : Bool)
        (labels : LabelsMap) (ci : Bool), epoch < 2 →
      process_double_missed_attestations dead prev w epoch slackOn labels ci =
        .ok ([], [])) ∧
    (∀ (gr : Int → Option (List Nat) → RewardsData) (epoch : Int)
        (net_w our_w : Lim) (labels : LabelsMap) (ci : Bool), epoch < 2 →
      process_rewards gr epoch net_w our_w labels ci = .ok []) := by
  refine ⟨?_, ?_, ?_⟩
  · intro liveness w epoch labels ci h
    rw [process_missed_attestations, if_pos h]
  · intro dead prev w epoch slackOn labels ci h
    rw [process_double_missed_attestations, if_pos h]
  · intro gr epoch net_w our_w labels ci h
    rw [process_rewards, if_pos h]

/-- Witness for C6 at concrete inputs: epoch 0 for the missed-attestations
probe, epoch 1 for the double-miss and rewards probes. -/
theorem c6_early_epoch_guards_witness :
    process_missed_attestations (fun _ _ => [(42, false)]) [] 0 [] true = .ok ([], []) ∧
    process_double_missed_attestations [42] [42] [] 1 true [] true = .ok ([], []) ∧
    process_rewards (fun _ _ => ⟨[], []⟩) 1 [] [] [] true = .ok [] :=
  ⟨c6_early_epoch_guards.1 (fun _ _ => [(42, false)]) [] 0 [] true (by decide),
   c6_early_epoch_guards.2.1 [42] [42] [] 1 true [] true (by decide),
   c6_early_epoch_guards.2.2 (fun _ _ => ⟨[], []⟩) 1 [] [] [] true (by decide)⟩

/-- Claim C7 (code bug): the Prometheus server is supposed to start once
the first non-negative slot has been processed, also for runs that begin
before genesis.  In the code, `start_http_server(8000)` runs only when
`idx == 0` (`entrypoint.py` lines 504-505), and a pre-genesis first slot
`continue`s before reaching that line (line 294), so a run whose first
yielded slot is negative never starts the server: shown in general for any
trace beginning with a negative slot, and concretely for the trace
`[-1, 0, 1]`, where slots 0 and 1 are processed with the server still not
started. -/
theorem c7_pre_genesis_server_never_started :
    (∀ (o : SlotOracle) (rest : List SlotOracle) (st' : LoopState),
        o.slot < 0 → runLoop (o :: rest) 0 initLoopState = .ok st' →
        st'.serverStarted = false) ∧
    runLoop [⟨-1, false, none⟩, ⟨0, false, none⟩, ⟨1, false, none⟩] 0 initLoopState =
      .ok { lastMissedAttEpoch := none, lastRewardsEpoch := none, prevEpoch := some 0,
            serverStarted := false, processedSlots := [0, 1],
            events := [.countdownPrint (-1), .futureBlocksCall 0,
                       .futureBlocksCall 1] } := by
  constructor
  · intro o rest st' hneg h
    have hs : slotIter o 0 initLoopState =
        .ok { initLoopState with
              events := initLoopState.events ++ [.countdownPrint o.slot] } := by
      unfold slotIter
      rw [if_pos hneg]
    simp only [runLoop, hs] at h
    exact runLoop_serverStarted_of_ne_zero rest 1 _ st' Nat.one_ne_zero h
  · decide

/-- Witness for C7's general part at the concrete pre-genesis trace
`[-3, 0]`. -/
theorem c7_pre_genesis_server_never_started_witness :
    ∃ st' : LoopState,
      runLoop [⟨-3, false, none⟩, ⟨0, false, none⟩] 0 initLoopState = .ok st' ∧
      st'.serverStarted = false :=
  ⟨{ lastMissedAttEpoch := none, lastRewardsEpoch := none, prevEpoch := some 0,
     serverStarted := false, processedSlots := [0],
     events := [.countdownPrint (-3), .futureBlocksCall 0] },
   by decide,
   c7_pre_genesis_server_never_started.1 ⟨-3, false, none⟩ [⟨0, false, none⟩] _
     (by decide) (by decide)⟩

/-- Counterexample to claim C1 as stated: at the concrete trace where the
slot-1 iteration's probe raises, the loop terminates with that exception
instead of logging it and advancing to slot 2 (the slot-2 iteration is
never reached, so the run produces no final state at all). -/
theorem c1_counterexample_loop_terminates :
    runLoop [⟨0, false, none⟩, ⟨1, false, some (.probeExn "beacon 5xx")⟩,
             ⟨2, false, none⟩] 0 initLoopState =
      .error (.probeExn "beacon 5xx") := by
  decide

/-- Claim C1, amended: a probe exception raised during a non-negative slot
iteration propagates out of the slot loop and terminates it with that
exception, whatever slots remain: the loop body of `_handler` has no
`try`/`except` (`entrypoint.py` lines 278-505; only `KeyboardInterrupt`
is caught, outside `_handler`). -/
theorem c1_probe_exception_terminates_loop
    (o : SlotOracle) (rest : List SlotOracle) (idx : Nat) (st : LoopState)
    (e : PyErr) (h0 : ¬ o.slot < 0) (h2 : o.pubkeysInvalid = false)
    (h1 : o.probeErr = some e) :
    runLoop (o :: rest) idx st = .error e := by
  simp only [runLoop]
  rw [slotIter, if_neg h0]
  simp [h1, h2]

/-- Witness for C1's amended theorem: a raising probe at slot 5 ends the
loop even though slot 6 is still pending. -/
theorem c1_probe_exception_terminates_loop_witness :
    runLoop [⟨5, false, some (.probeExn "boom")⟩, ⟨6, false, none⟩] 0 initLoopState =
      .error (.probeExn "boom") :=
  c1_probe_exception_terminates_loop ⟨5, false, some (.probeExn "boom")⟩
    [⟨6, false, none⟩] 0 initLoopState (.probeExn "boom")
    (by decide) rfl rfl

/-- Counterexample to claim C8 as stated: in epoch 1 the
FutureBlockProposals probe is invoked both at slot 32 (the epoch's first
slot) and again at slot 33, so it does not run only once per epoch at the
epoch's first slot: `entrypoint.py` line 451 calls
`process_future_blocks_proposal` unconditionally at every processed slot. -/
theorem c8_counterexample_probe_runs_every_slot :
    runLoop [⟨32, false, none⟩, ⟨33, false, none⟩] 0 initLoopState =
      .ok { lastMissedAttEpoch := none, lastRewardsEpoch := none, prevEpoch := some 1,
            serverStarted := true, processedSlots := [32, 33],
            events := [.futureBlocksCall 32, .httpServerStart 8000,
                       .futureBlocksCall 33] } ∧
    (33 : Int) % NB_SLOT_PER_EPOCH ≠ 0 := by
  decide

theorem exceptOfOption_eq_ok {β : Type} {o : Option β} {e : PyErr} {b : β} :
    exceptOfOption o e = .ok b ↔ o = some b := by
  cases o <;> simp [exceptOfOption.eq_def]

theorem exMapList_ok_of_forall {α β : Type} (f : α → Except PyErr β) :
    ∀ l : List α, (∀ a ∈ l, ∃ b, f a = .ok b) →
      ∃ l', exMapList f l = .ok l' ∧
        List.Forall₂ (fun a b => f a = .ok b) l l' := by
  intro l
  induction l with
  | nil => intro _; exact ⟨[], rfl, List.Forall₂.nil⟩
  | cons a rest ih =>
    intro h
    obtain ⟨b, hb⟩ := h a (List.mem_cons_self a rest)
    obtain ⟨tl, htl, hf2⟩ := ih (fun x hx => h x (List.mem_cons_of_mem a hx))
    exact ⟨b :: tl, by simp [exMapList, hb, htl], List.Forall₂.cons hb hf2⟩

theorem exMapList_ok_iff_forall {α β : Type} (f : α → Except PyErr β) :
    ∀ l : List α, (∃ l', exMapList f l = .ok l') ↔ (∀ a ∈ l, ∃ b, f a = .ok b) := by
  intro l
  induction l with
  | nil => simp [exMapList]
  | cons a rest ih =>
    constructor
    · rintro ⟨l', hl⟩
      simp only [exMapList] at hl
      cases hfa : f a with
      | error e => rw [hfa] at hl; cases hl
      | ok b =>
        rw [hfa] at hl
        cases hrest : exMapList f rest with
        | error e => rw [hrest] at hl; cases hl
        | ok tl =>
          intro x hx
          rcases List.mem_cons.mp hx with rfl | hx'
          · exact ⟨b, hfa⟩
          · exact (ih.mp ⟨tl, hrest⟩) x hx'
    · intro h
      obtain ⟨l', hl, _⟩ := exMapList_ok_of_forall f (a :: rest) h
      exact ⟨l', hl⟩

theorem forall2_mem_right {α β : Type} {R : α → β → Prop} :
    ∀ {l : List α} {l' : List β}, List.Forall₂ R l l' → ∀ b ∈ l', ∃ a ∈ l, R a b := by
  intro l l' h
  induction h with
  | nil => intro b hb; cases hb
  | @cons a b l₁ l₂ hab htl ih =>
    intro x hx
    rcases List.mem_cons.mp hx with rfl | hx'
    · exact ⟨a, List.mem_cons_self _ _, hab⟩
    · obtain ⟨a', ha', hr⟩ := ih x hx'
      exact ⟨a', List.mem_cons_of_mem _ ha', hr⟩

theorem forall2_mem_left {α β : Type} {R : α → β → Prop} :
    ∀ {l : List α} {l' : List β}, List.Forall₂ R l l' → ∀ a ∈ l, ∃ b ∈ l', R a b := by
  intro l l' h
  induction h with
  | nil => intro a ha; cases ha
  | @cons a b l₁ l₂ hab htl ih =>
    intro x hx
    rcases List.mem_cons.mp hx with rfl | hx'
    · exact ⟨b, List.mem_cons_self _ _, hab⟩
    · obtain ⟨b', hb', hr⟩ := ih x hx'
      exact ⟨b', List.mem_cons_of_mem _ hb', hr⟩

theorem buildActualDict_isSome :
    ∀ (l : List TotalReward) (m : Nat → Option Reward) (k : Nat),
      (buildActualDict l m k).isSome = true ↔
        (∃ r ∈ l, r.validator_index = k) ∨ (m k).isSome = true := by
  intro l
  induction l with
  | nil => intro m k; simp [buildActualDict]
  | cons r rest ih =>
    intro m k
    rw [buildActualDict, ih]
    constructor
    · rintro (⟨r', hr', hk⟩ | hsome)
      · exact Or.inl ⟨r', List.mem_cons_of_mem _ hr', hk⟩
      · simp only [fupdate] at hsome
        by_cases hk : k = r.validator_index
        · exact Or.inl ⟨r, List.mem_cons_self _ _, hk.symm⟩
        · rw [if_neg hk] at hsome
          exact Or.inr hsome
    · rintro (⟨r', hr', hk⟩ | hsome)
      · rcases List.mem_cons.mp hr' with rfl | hmem
        · right
          simp [fupdate, hk.symm]
        · exact Or.inl ⟨r', hmem, hk⟩
      · right
        simp only [fupdate]
        by_cases hk : k = r.validator_index
        · simp [hk]
        · rw [if_neg hk]
          exact hsome

theorem buildIdealDict_isSome :
    ∀ (l : List IdealReward) (m : Int → Option Reward) (k : Int),
      (buildIdealDict l m k).isSome = true ↔
        (∃ r ∈ l, r.effective_balance = k) ∨ (m k).isSome = true := by
  intro l
  induction l with
  | nil => intro m k; simp [buildIdealDict]
  | cons r rest ih =>
    intro m k
    rw [buildIdealDict, ih]
    constructor
    · rintro (⟨r', hr', hk⟩ | hsome)
      · exact Or.inl ⟨r', List.mem_cons_of_mem _ hr', hk⟩
      · simp only [fupdate] at hsome
        by_cases hk : k = r.effective_balance
        · exact Or.inl ⟨r, List.mem_cons_self _ _, hk.symm⟩
        · rw [if_neg hk] at hsome
          exact Or.inr hsome
    · rintro (⟨r', hr', hk⟩ | hsome)
      · rcases List.mem_cons.mp hr' with rfl | hmem
        · right
          simp [fupdate, hk.symm]
        · exact Or.inl ⟨r', hmem, hk⟩
      · right
        simp only [fupdate]
        by_cases hk : k = r.effective_balance
        · simp [hk]
        · rw [if_neg hk]
          exact hsome

/-- Claim C10: the network pass of `process_rewards` is total over its
inputs (the guard skips a validator whose index has no `total_rewards`
row or whose effective balance has no `ideal_rewards` row), while the
watched-set pass performs the same two dict subscripts unguarded and
succeeds exactly when every watched index appears in `total_rewards` and
every watched effective balance appears in `ideal_rewards`. -/
theorem c10_rewards_pass_totality :
    (∀ (data : RewardsData) (ntv : VDict),
      ∃ items, netRewardItems data ntv = .ok items) ∧
    (∀ (data : RewardsData) (otv : VDict),
      (∃ items, ourRewardItems data otv = .ok items) ↔
        (∀ p ∈ otv, (∃ r ∈ data.total_rewards, r.validator_index = p.1) ∧
          (∃ r ∈ data.ideal_rewards,
            r.effective_balance = p.2.effective_balance))) := by
  constructor
  · intro data ntv
    unfold netRewardItems
    rw [exMapList_ok_iff_forall]
    intro p hp
    rw [List.mem_filter] at hp
    obtain ⟨h1, h2⟩ := of_decide_eq_true hp.2
    obtain ⟨actual, hact⟩ := Option.isSome_iff_exists.mp h1
    obtain ⟨ideal, hid⟩ := Option.isSome_iff_exists.mp h2
    exact ⟨_process_validator p.2.pubkey ideal actual, by simp [hid, hact]⟩
  · intro data otv
    unfold ourRewardItems
    rw [exMapList_ok_iff_forall]
    constructor
    · intro h p hp
      obtain ⟨b, hb⟩ := h p hp
      cases h1 : effBalanceToIdealReward data p.2.effective_balance with
      | none => rw [h1] at hb; cases hb
      | some ideal =>
        rw [h1] at hb
        cases h2 : indexToActualReward data p.1 with
        | none => rw [h2] at hb; cases hb
        | some actual =>
          constructor
          · have hs : (buildActualDict data.total_rewards (fun _ => none) p.1).isSome = true := by
              have : indexToActualReward data p.1 = some actual := h2
              unfold indexToActualReward at this
              rw [this]
              rfl
            rcases (buildActualDict_isSome data.total_rewards (fun _ => none) p.1).mp hs with h | h
            · exact h
            · cases h
          · have hs : (buildIdealDict data.ideal_rewards (fun _ => none) p.2.effective_balance).isSome = true := by
              have : effBalanceToIdealReward data p.2.effective_balance = some ideal := h1
              unfold effBalanceToIdealReward at this
              rw [this]
              rfl
            rcases (buildIdealDict_isSome data.ideal_rewards (fun _ => none) p.2.effective_balance).mp hs with h | h
            · exact h
            · cases h
    · intro h p hp
      obtain ⟨hidx, heb⟩ := h p hp
      have h1 : (effBalanceToIdealReward data p.2.effective_balance).isSome = true := by
        unfold effBalanceToIdealReward
        exact (buildIdealDict_isSome data.ideal_rewards (fun _ => none)
          p.2.effective_balance).mpr (Or.inl heb)
      have h2 : (indexToActualReward data p.1).isSome = true := by
        unfold indexToActualReward
        exact (buildActualDict_isSome data.total_rewards (fun _ => none)
          p.1).mpr (Or.inl hidx)
      obtain ⟨ideal, hid⟩ := Option.isSome_iff_exists.mp h1
      obtain ⟨actual, hact⟩ := Option.isSome_iff_exists.mp h2
      exact ⟨_process_validator p.2.pubkey ideal actual, by rw [hid, hact]⟩


theorem relays_processLoop_ok
    (resp : String → Int → Option ProposerPayloadDelivered) (slot : Int)
    (labels : LabelsMap) :
    ∀ (urls : List String) (known0 : Bool) (evs0 : List Event),
      (∀ url ∈ urls, ∀ p, resp url slot = some p →
        (alookup labels p.proposer_pubkey).isSome = true ∧
        (alookup RELAY_MAPPING url).isSome = true) →
      Relays.processLoop resp slot labels true urls known0 evs0 =
        .ok (known0 || urls.any (fun u => (resp u slot).isSome),
             evs0 ++ mevIncsOf resp slot labels urls) := by
  intro urls
  induction urls with
  | nil => intro known0 evs0 _; simp [Relays.processLoop, mevIncsOf]
  | cons url rest ih =>
    intro known0 evs0 h
    rw [Relays.processLoop]
    cases hresp : resp url slot with
    | none =>
      rw [ih known0 evs0 (fun u hu => h u (List.mem_cons_of_mem _ hu))]
      simp [mevIncsOf, hresp]
    | some p =>
      obtain ⟨hL, hN⟩ := h url (List.mem_cons_self _ _) p hresp
      obtain ⟨L, hLe⟩ := Option.isSome_iff_exists.mp hL
      obtain ⟨nm, hNe⟩ := Option.isSome_iff_exists.mp hN
      have hrest := ih true
        (evs0 ++ [Event.counterInc "our_mev_boost_reward_per_validator_count"
          (L ++ [(RELAY_KEY, nm)]) ((p.value : ℚ) / 10 ^ 9)])
        (fun u hu => h u (List.mem_cons_of_mem _ hu))
      simp [hLe, hNe, hrest, mevIncsOf, hresp]

theorem relays_processLoop_err
    (resp : String → Int → Option ProposerPayloadDelivered) (slot : Int)
    (labels : LabelsMap) :
    ∀ (urls : List String) (known0 : Bool) (evs0 : List Event),
      (∀ url ∈ urls, ∀ p, resp url slot = some p →
        (alookup labels p.proposer_pubkey).isSome = true) →
      (∃ url ∈ urls, ∃ p, resp url slot = some p ∧
        alookup RELAY_MAPPING url = none) →
      Relays.processLoop resp slot labels true urls known0 evs0 =
        .error .keyError := by
  intro urls
  induction urls with
  | nil => intro known0 evs0 _ hbad; obtain ⟨url, hu, _⟩ := hbad; cases hu
  | cons url rest ih =>
    intro known0 evs0 hlab hbad
    rw [Relays.processLoop]
    obtain ⟨u, hu, p, hp, hnone⟩ := hbad
    rcases List.mem_cons.mp hu with rfl | hu'
    · obtain ⟨L, hLe⟩ := Option.isSome_iff_exists.mp
        (hlab u (List.mem_cons_self _ _) p hp)
      simp [hp, hLe, hnone]
    · cases hresp : resp url slot with
      | none =>
        have hr := ih known0 evs0 (fun x hx => hlab x (List.mem_cons_of_mem _ hx))
          ⟨u, hu', p, hp, hnone⟩
        simpa using hr
      | some q =>
        obtain ⟨L, hLe⟩ := Option.isSome_iff_exists.mp
          (hlab url (List.mem_cons_self _ _) q hresp)
        cases hmap : alookup RELAY_MAPPING url with
        | none => simp [hLe, hmap]
        | some nm =>
          have hr := ih true
            (evs0 ++ [Event.counterInc "our_mev_boost_reward_per_validator_count"
              (L ++ [(RELAY_KEY, nm)]) ((q.value : ℚ) / 10 ^ 9)])
            (fun x hx => hlab x (List.mem_cons_of_mem _ hx))
            ⟨u, hu', p, hp, hnone⟩
          simp [hLe, hmap, hr]

theorem mevIncsOf_eq_nil
    (resp : String → Int → Option ProposerPayloadDelivered) (slot : Int)
    (labels : LabelsMap) (urls : List String)
    (h : ∀ url ∈ urls, resp url slot = none) :
    mevIncsOf resp slot labels urls = [] := by
  rw [mevIncsOf, List.filterMap_eq_nil_iff]
  intro url hu
  rw [h url hu]
  rfl

theorem mevIncsOf_mem
    (resp : String → Int → Option ProposerPayloadDelivered) (slot : Int)
    (labels : LabelsMap) (urls : List String) (url : String)
    (p : ProposerPayloadDelivered) (hu : url ∈ urls) (hp : resp url slot = some p) :
    Event.counterInc "our_mev_boost_reward_per_validator_count"
      ((alookup labels p.proposer_pubkey).getD [] ++
       [(RELAY_KEY, (alookup RELAY_MAPPING url).getD "")])
      ((p.value : ℚ) / 10 ^ 9) ∈ mevIncsOf resp slot labels urls := by
  rw [mevIncsOf, List.mem_filterMap]
  exact ⟨url, hu, by rw [hp]; rfl⟩

/-- Claim C4: in the per-block relay check with configured relay URLs and a
non-empty labels map, if no relay returns a delivered-payload record the
bad-relay counter is incremented by exactly one and the "unknown builder"
line is logged while the MEV-boost reward counter is untouched; if one or
more relays return a record, the per-validator MEV-boost reward counter
labelled with the relay's display name is incremented by `value / 1e9` for
each record and the bad-relay counter is untouched. -/
theorem c4_relay_process_events
    (urls : List String) (resp : String → Int → Option ProposerPayloadDelivered)
    (slot : Int) (labels : LabelsMap)
    (h0 : urls ≠ []) (h1 : labels ≠ [])
    (hlk : ∀ url ∈ urls, ∀ p, resp url slot = some p →
      (alookup labels p.proposer_pubkey).isSome = true ∧
      (alookup RELAY_MAPPING url).isSome = true) :
    Relays.process urls resp slot labels true =
      .ok (mevIncsOf resp slot labels urls ++
           (if urls.any (fun u => (resp u slot).isSome) then []
            else [.counterInc "bad_relay_count" [] 1,
                  .printLine unknownBuilderMsg])) ∧
    ((∀ url ∈ urls, resp url slot = none) →
      mevIncsOf resp slot labels urls = []) ∧
    (∀ url ∈ urls, ∀ p, resp url slot = some p →
      Event.counterInc "our_mev_boost_reward_per_validator_count"
        ((alookup labels p.proposer_pubkey).getD [] ++
         [(RELAY_KEY, (alookup RELAY_MAPPING url).getD "")])
        ((p.value : ℚ) / 10 ^ 9) ∈ mevIncsOf resp slot labels urls) := by
  refine ⟨?_, mevIncsOf_eq_nil resp slot labels urls,
          fun url hu p hp => mevIncsOf_mem resp slot labels urls url p hu hp⟩
  rw [Relays.process]
  rw [if_neg (by simpa using h0), if_neg (by simpa using h1)]
  rw [relays_processLoop_ok resp slot labels urls false [] hlk]
  cases hany : urls.any (fun u => (resp u slot).isSome) with
  | false => simp [hany]
  | true => simp [hany]

/-- Witness for C4 at a concrete input: one configured relay (the
flashbots URL of `RELAY_MAPPING`) returning a delivered payload of value
2 gwei * 1e9 for a watched, labelled proposer. -/
theorem c4_relay_process_events_witness :
    Relays.process
      ["https://0xac6e77dfe25ecd6110b8e780608cce0dab71fdd5ebea22a16c0205200f2f8e2e3ad3b71d3499c54ad14d6c21b41a37ae@boost-relay.flashbots.net"]
      (fun _ _ => some ⟨120, 2000000000, "0xaa"⟩) 120
      [("0xaa", [("name", "v1")])] true =
      .ok [Event.counterInc "our_mev_boost_reward_per_validator_count"
            [("name", "v1"), (RELAY_KEY, "flashbots")] 2] := by
  have h := (c4_relay_process_events
    ["https://0xac6e77dfe25ecd6110b8e780608cce0dab71fdd5ebea22a16c0205200f2f8e2e3ad3b71d3499c54ad14d6c21b41a37ae@boost-relay.flashbots.net"]
    (fun _ _ => some ⟨120, 2000000000, "0xaa"⟩) 120
    [("0xaa", [("name", "v1")])]
    (by decide) (by decide)
    (fun url hu p hp => by
      obtain rfl := List.mem_singleton.mp hu
      cases hp
      exact ⟨by decide, by decide⟩)).1
  rw [h]
  simp [mevIncsOf, RELAY_MAPPING, RELAY_KEY, alookup]
  norm_num

/-- Counterexample to claim C9 as stated: with a non-empty labels map, a
delivered payload from a configured relay URL outside the 6-entry
`RELAY_MAPPING` is not tolerated: `RELAY_MAPPING[relay_url]` raises
`KeyError` (`relays.py` line 105), instead of emitting the metric with the
display-name label dropped. -/
theorem c9_counterexample_unknown_url_keyerror :
    Relays.process ["https://unknown-relay.example"]
      (fun _ _ => some ⟨120, 1000000000, "0xaa"⟩) 120
      [("0xaa", [("name", "v1")])] true = .error .keyError := by
  decide

/-- Claim C9, amended: in the per-block relay check with a non-empty labels
map, a delivered payload is processed without error if and only if every
configured relay URL that returned a payload is one of the 6 well-known
`RELAY_MAPPING` URLs (given that every delivered proposer pubkey is
labelled); a delivered payload from an unknown URL raises `KeyError`, and
no metric with a dropped display-name label is emitted. -/
theorem c9_unknown_relay_url_not_tolerated
    (urls : List String) (resp : String → Int → Option ProposerPayloadDelivered)
    (slot : Int) (labels : LabelsMap)
    (h1 : labels ≠ [])
    (hlk : ∀ url ∈ urls, ∀ p, resp url slot = some p →
      (alookup labels p.proposer_pubkey).isSome = true) :
    (∃ evs, Relays.process urls resp slot labels true = .ok evs) ↔
      (∀ url ∈ urls, ∀ p, resp url slot = some p →
        (alookup RELAY_MAPPING url).isSome = true) := by
  constructor
  · rintro ⟨evs, hok⟩
    by_contra hnot
    push_neg at hnot
    obtain ⟨url, hu, p, hp, hmap⟩ := hnot
    have hnone : alookup RELAY_MAPPING url = none := by
      cases hm : alookup RELAY_MAPPING url with
      | none => rfl
      | some nm => rw [hm] at hmap; simp at hmap
    have hlen : ¬ urls.length = 0 := by
      intro hlen
      rw [List.length_eq_zero] at hlen
      subst hlen
      cases hu
    have herr := relays_processLoop_err resp slot labels urls false [] hlk
      ⟨url, hu, p, hp, hnone⟩
    rw [Relays.process, if_neg hlen, if_neg (by simpa using h1)] at hok
    rw [herr] at hok
    cases hok
  · intro hmp
    rw [Relays.process]
    by_cases hlen : urls.length = 0
    · rw [if_pos hlen]
      exact ⟨[], rfl⟩
    · rw [if_neg hlen, if_neg (by simpa using h1)]
      rw [relays_processLoop_ok resp slot labels urls false []
        (fun url hu p hp => ⟨hlk url hu p hp, hmp url hu p hp⟩)]
      dsimp only
      split
      · exact ⟨_, rfl⟩
      · exact ⟨_, rfl⟩

/-- Witness for C9's amended theorem: one mapped relay URL (flashbots)
delivering a payload for a labelled proposer is processed without error. -/
theorem c9_unknown_relay_url_not_tolerated_witness :
    ∃ evs, Relays.process
      ["https://0xac6e77dfe25ecd6110b8e780608cce0dab71fdd5ebea22a16c0205200f2f8e2e3ad3b71d3499c54ad14d6c21b41a37ae@boost-relay.flashbots.net"]
      (fun _ _ => some ⟨120, 1000000000, "0xaa"⟩) 120
      [("0xaa", [("name", "v1")])] true = .ok evs :=
  (c9_unknown_relay_url_not_tolerated
    ["https://0xac6e77dfe25ecd6110b8e780608cce0dab71fdd5ebea22a16c0205200f2f8e2e3ad3b71d3499c54ad14d6c21b41a37ae@boost-relay.flashbots.net"]
    (fun _ _ => some ⟨120, 1000000000, "0xaa"⟩) 120
    [("0xaa", [("name", "v1")])] (by decide)
    (fun url hu p hp => by
      obtain rfl := List.mem_singleton.mp hu
      cases hp
      decide)).mpr
    (fun url hu p hp => by
      obtain rfl := List.mem_singleton.mp hu
      cases hp
      decide)

theorem slotIter_ok_events {o : SlotOracle} {idx : Nat} {st st' : LoopState}
    (h : slotIter o idx st = .ok st') :
    ∃ l, st'.events = st.events ++ l ∧
      (¬ o.slot < 0 → Event.futureBlocksCall o.slot ∈ l) := by
  unfold slotIter at h
  split at h
  · cases h
    exact ⟨[.countdownPrint o.slot], rfl, fun hn => absurd (by assumption) hn⟩
  · split at h
    · dsimp only at h
      split at h
      · cases h
      · cases h
    · dsimp only at h
      split at h
      · cases h
      · cases h
        refine ⟨(if missed_att_gate o.slot st.lastMissedAttEpoch
                  then [Event.missedAttRun o.slot] else []) ++
                ((if rewards_gate o.slot st.lastRewardsEpoch
                  then [Event.rewardsRun o.slot] else []) ++
                 ([Event.futureBlocksCall o.slot] ++
                  (if idx = 0 then [Event.httpServerStart 8000] else []))),
                ?_, fun _ => ?_⟩
        · simp [List.append_assoc]
        · simp

theorem runLoop_events_mono :
    ∀ (os : List SlotOracle) (idx : Nat) (st st' : LoopState),
      runLoop os idx st = .ok st' → ∃ l, st'.events = st.events ++ l := by
  intro os
  induction os with
  | nil =>
    intro idx st st' h
    simp only [runLoop] at h
    cases h
    exact ⟨[], by simp⟩
  | cons o rest ih =>
    intro idx st st' h
    simp only [runLoop] at h
    cases hs : slotIter o idx st with
    | error e => rw [hs] at h; cases h
    | ok st1 =>
      rw [hs] at h
      obtain ⟨l1, hl1, _⟩ := slotIter_ok_events hs
      obtain ⟨l2, hl2⟩ := ih (idx + 1) st1 st' h
      exact ⟨l1 ++ l2, by rw [hl2, hl1, List.append_assoc]⟩

/-- Claim C8, amended: `process_future_blocks_proposal` is invoked at every
processed (non-negative) slot — not only once per epoch at the epoch's
first slot — and each invocation publishes the future-proposals count
gauge; only the per-proposal console lines (and the relay registration
check) are restricted to `is_new_epoch` iterations.  (Stated for an empty
labels map, where the registration-check branch — which raises `TypeError`,
see `next_blocks_proposal.py` line 65 — is not taken.) -/
theorem c8_future_blocks_probe_every_slot :
    (∀ (os : List SlotOracle) (idx : Nat) (st st' : LoopState),
      runLoop os idx st = .ok st' → ∀ o ∈ os, ¬ o.slot < 0 →
        Event.futureBlocksCall o.slot ∈ st'.events) ∧
    (∀ (duties_cur duties_next : List ProposerDuty) (our_pubkeys : List String)
        (slot : Int) (is_new_epoch : Bool) (n : Nat) (evs : List Event),
      process_future_blocks_proposal duties_cur duties_next our_pubkeys slot
          is_new_epoch [] = .ok (n, evs) →
        (∃ q, Event.gaugeSet "future_block_proposals_count" q ∈ evs) ∧
        (is_new_epoch = false → ∀ m, Event.printLine m ∉ evs)) ∧
    (∀ (duties_cur duties_next : List ProposerDuty) (our_pubkeys : List String)
        (slot : Int) (is_new_epoch : Bool),
      ∃ r, process_future_blocks_proposal duties_cur duties_next our_pubkeys slot
          is_new_epoch [] = .ok r) := by
  refine ⟨?_, ?_, ?_⟩
  · intro os
    induction os with
    | nil => intro idx st st' h o ho; cases ho
    | cons o2 rest ih =>
      intro idx st st' h o ho hneg
      simp only [runLoop] at h
      cases hs : slotIter o2 idx st with
      | error e => rw [hs] at h; cases h
      | ok st1 =>
        rw [hs] at h
        rcases List.mem_cons.mp ho with rfl | ho'
        · obtain ⟨l1, hl1, hmem⟩ := slotIter_ok_events hs
          obtain ⟨l2, hl2⟩ := runLoop_events_mono rest (idx + 1) st1 st' h
          rw [hl2, hl1]
          exact List.mem_append_left _ (List.mem_append_right _ (hmem hneg))
        · exact ih (idx + 1) st1 st' h o ho' hneg
  · intro dc dn pk slot ine n evs h
    revert h
    simp only [process_future_blocks_proposal]
    rw [if_neg (by simp)]
    intro h
    cases h
    constructor
    · exact ⟨_, List.mem_append_left _ (List.mem_singleton_self _)⟩
    · intro hf m
      subst hf
      simp
  · intro dc dn pk slot ine
    simp only [process_future_blocks_proposal]
    rw [if_neg (by simp)]
    exact ⟨_, rfl⟩

/-- Witness for C8's amended theorem: in the run over slots 32 and 33 the
probe is invoked at slot 33 (a non-first slot of epoch 1). -/
theorem c8_future_blocks_probe_every_slot_witness :
    Event.futureBlocksCall 33 ∈
      ({ lastMissedAttEpoch := none, lastRewardsEpoch := none, prevEpoch := some 1,
         serverStarted := true, processedSlots := [32, 33],
         events := [.futureBlocksCall 32, .httpServerStart 8000,
                    .futureBlocksCall 33] } : LoopState).events :=
  c8_future_blocks_probe_every_slot.1
    [⟨32, false, none⟩, ⟨33, false, none⟩] 0 initLoopState
    { lastMissedAttEpoch := none, lastRewardsEpoch := none, prevEpoch := some 1,
      serverStarted := true, processedSlots := [32, 33],
      events := [.futureBlocksCall 32, .httpServerStart 8000,
                 .futureBlocksCall 33] }
    (by decide) ⟨33, false, none⟩ (by decide) (by decide)

theorem buildRegistrations_lookup :
    ∀ (props : List ProposerDuty) (d : Int → Option Bool) (s : Int),
      buildRegistrations props d s =
        if s ∈ props.map (fun it => it.slot) then some false else d s := by
  intro props
  induction props with
  | nil => intro d s; simp [buildRegistrations]
  | cons it rest ih =>
    intro d s
    rw [buildRegistrations, ih]
    by_cases hmem : s ∈ rest.map (fun x => x.slot)
    · rw [if_pos hmem, if_pos (by simp [hmem])]
    · rw [if_neg hmem]
      by_cases hs : s = it.slot
      · subst hs
        rw [if_pos (by simp)]
        simp [fupdate]
      · rw [if_neg (by simp [hs, hmem])]
        simp [fupdate, hs]

theorem buildSlotPubkeys_not_mem :
    ∀ (props : List ProposerDuty) (d : Int → Option String) (s : Int),
      s ∉ props.map (fun it => it.slot) →
      buildSlotPubkeys props d s = d s := by
  intro props
  induction props with
  | nil => intro d s _; rfl
  | cons it rest ih =>
    intro d s hs
    rw [buildSlotPubkeys, ih _ _ (fun h => hs (by simp [h]))]
    have hne : ¬ s = it.slot := fun h => hs (by simp [h])
    simp [fupdate, hne]

theorem buildSlotPubkeys_mem :
    ∀ (props : List ProposerDuty) (d : Int → Option String) (item : ProposerDuty),
      item ∈ props → (props.map (fun it => it.slot)).Nodup →
      buildSlotPubkeys props d item.slot = some item.pubkey := by
  intro props
  induction props with
  | nil => intro d item h _; cases h
  | cons it rest ih =>
    intro d item hmem hnd
    rw [buildSlotPubkeys]
    rw [List.map_cons, List.nodup_cons] at hnd
    rcases List.mem_cons.mp hmem with rfl | hmem'
    · rw [buildSlotPubkeys_not_mem rest _ _ hnd.1]
      simp [fupdate]
    · exact ih _ item hmem' hnd.2

theorem regApplyRelayData_isSome (pubkeys : Int → Option String) :
    ∀ (data : List RelayBuilderValidator) (r : Int → Option Bool) (s : Int),
      ((regApplyRelayData pubkeys data r) s).isSome = (r s).isSome := by
  intro data
  induction data with
  | nil => intro r s; rfl
  | cons item rest ih =>
    intro r s
    rw [regApplyRelayData, ih]
    by_cases hc : (r item.slot).isSome = true ∧
        pubkeys item.slot = some item.entryPubkey
    · rw [if_pos hc]
      by_cases hs : s = item.slot
      · subst hs
        simp [fupdate, hc.1]
      · simp [fupdate, hs]
    · rw [if_neg hc]

theorem regApplyRelayData_some_true (pubkeys : Int → Option String) :
    ∀ (data : List RelayBuilderValidator) (r : Int → Option Bool) (s : Int),
      (regApplyRelayData pubkeys data r) s = some true ↔
        r s = some true ∨ ((r s).isSome = true ∧
          ∃ e ∈ data, e.slot = s ∧ pubkeys s = some e.entryPubkey) := by
  intro data
  induction data with
  | nil => intro r s; simp [regApplyRelayData]
  | cons item rest ih =>
    intro r s
    rw [regApplyRelayData, ih]
    by_cases hc : (r item.slot).isSome = true ∧
        pubkeys item.slot = some item.entryPubkey
    · rw [if_pos hc]
      by_cases hs : s = item.slot
      · subst hs
        constructor
        · intro _
          exact Or.inr ⟨hc.1, item, List.mem_cons_self _ _, rfl, hc.2⟩
        · intro _
          left
          simp [fupdate]
      · have hrw : fupdate r item.slot true s = r s := by simp [fupdate, hs]
        rw [hrw]
        constructor
        · rintro (h | ⟨hsm, e, he, hes, hep⟩)
          · exact Or.inl h
          · exact Or.inr ⟨hsm, e, List.mem_cons_of_mem _ he, hes, hep⟩
        · rintro (h | ⟨hsm, e, he, hes, hep⟩)
          · exact Or.inl h
          · rcases List.mem_cons.mp he with rfl | he'
            · exact absurd hes.symm hs
            · exact Or.inr ⟨hsm, e, he', hes, hep⟩
    · rw [if_neg hc]
      constructor
      · rintro (h | ⟨hsm, e, he, hes, hep⟩)
        · exact Or.inl h
        · exact Or.inr ⟨hsm, e, List.mem_cons_of_mem _ he, hes, hep⟩
      · rintro (h | ⟨hsm, e, he, hes, hep⟩)
        · exact Or.inl h
        · rcases List.mem_cons.mp he with rfl | he'
          · exfalso
            subst hes
            exact hc ⟨hsm, hep⟩
          · exact Or.inr ⟨hsm, e, he', hes, hep⟩

theorem regRelayLoop_isSome
    (builderResp : String → Except Unit (List RelayBuilderValidator))
    (pubkeys : Int → Option String) :
    ∀ (urls : List String) (r : Int → Option Bool) (evs : List Event) (s : Int),
      ((regRelayLoop builderResp pubkeys urls r evs).1 s).isSome = (r s).isSome := by
  intro urls
  induction urls with
  | nil => intro r evs s; rfl
  | cons url rest ih =>
    intro r evs s
    rw [regRelayLoop]
    cases hres : builderResp url with
    | error er =>
      dsimp only
      rw [ih]
    | ok data =>
      dsimp only
      rw [ih, regApplyRelayData_isSome]

theorem regRelayLoop_lookup
    (builderResp : String → Except Unit (List RelayBuilderValidator))
    (pubkeys : Int → Option String) :
    ∀ (urls : List String) (r : Int → Option Bool) (evs : List Event) (s : Int),
      (regRelayLoop builderResp pubkeys urls r evs).1 s = some true ↔
        r s = some true ∨ ((r s).isSome = true ∧
          ∃ url ∈ urls, ∃ data, builderResp url = .ok data ∧
            ∃ e ∈ data, e.slot = s ∧ pubkeys s = some e.entryPubkey) := by
  intro urls
  induction urls with
  | nil => intro r evs s; simp [regRelayLoop]
  | cons url rest ih =>
    intro r evs s
    rw [regRelayLoop]
    cases hres : builderResp url with
    | error er =>
      dsimp only
      rw [ih]
      constructor
      · rintro (h | ⟨hsm, u, hu, data, hdata, hrest⟩)
        · exact Or.inl h
        · exact Or.inr ⟨hsm, u, List.mem_cons_of_mem _ hu, data, hdata, hrest⟩
      · rintro (h | ⟨hsm, u, hu, data, hdata, hrest⟩)
        · exact Or.inl h
        · rcases List.mem_cons.mp hu with rfl | hu'
          · rw [hres] at hdata
            cases hdata
          · exact Or.inr ⟨hsm, u, hu', data, hdata, hrest⟩
    | ok data0 =>
      dsimp only
      rw [ih, regApplyRelayData_some_true, regApplyRelayData_isSome]
      constructor
      · rintro ((h | ⟨hsm, e, he, hes, hep⟩) | ⟨hsm, u, hu, data, hdata, hrest⟩)
        · exact Or.inl h
        · exact Or.inr ⟨hsm, url, List.mem_cons_self _ _, data0, hres, e, he, hes, hep⟩
        · exact Or.inr ⟨hsm, u, List.mem_cons_of_mem _ hu, data, hdata, hrest⟩
      · rintro (h | ⟨hsm, u, hu, data, hdata, hrest⟩)
        · exact Or.inl (Or.inl h)
        · rcases List.mem_cons.mp hu with rfl | hu'
          · rw [hres] at hdata
            cases hdata
            obtain ⟨e, he, hes, hep⟩ := hrest
            exact Or.inl (Or.inr ⟨hsm, e, he, hes, hep⟩)
          · exact Or.inr ⟨hsm, u, hu', data, hdata, hrest⟩

theorem regRelayLoop_events
    (builderResp : String → Except Unit (List RelayBuilderValidator))
    (pubkeys : Int → Option String) :
    ∀ (urls : List String) (r : Int → Option Bool) (evs : List Event),
      (regRelayLoop builderResp pubkeys urls r evs).2 =
        evs ++ urls.flatMap (fun url =>
          match builderResp url with
          | .error _ => [.builderQuery url,
                         .printLine ("⚠️ Cannot contact relay " ++ url)]
          | .ok _ => [.builderQuery url]) := by
  intro urls
  induction urls with
  | nil => intro r evs; simp [regRelayLoop]
  | cons url rest ih =>
    intro r evs
    rw [regRelayLoop]
    cases hres : builderResp url with
    | error er =>
      dsimp only
      rw [ih]
      simp [hres, List.flatMap_cons, List.append_assoc]
    | ok data =>
      dsimp only
      rw [ih]
      simp [hres, List.flatMap_cons, List.append_assoc]

theorem listedByAnyRelay_iff
    (urls : List String)
    (builderResp : String → Except Unit (List RelayBuilderValidator))
    (d : ProposerDuty) :
    listedByAnyRelay urls builderResp d = true ↔
      ∃ url ∈ urls, ∃ data, builderResp url = .ok data ∧
        ∃ e ∈ data, e.slot = d.slot ∧ e.entryPubkey = d.pubkey := by
  rw [listedByAnyRelay, List.any_eq_true]
  constructor
  · rintro ⟨url, hu, hp⟩
    cases hres : builderResp url with
    | error er => rw [hres] at hp; cases hp
    | ok data =>
      rw [hres] at hp
      rw [List.any_eq_true] at hp
      obtain ⟨e, he, hee⟩ := hp
      rw [Bool.and_eq_true, beq_iff_eq, beq_iff_eq] at hee
      exact ⟨url, hu, data, hres, e, he, hee.1, hee.2⟩
  · rintro ⟨url, hu, data, hdata, e, he, h1, h2⟩
    refine ⟨url, hu, ?_⟩
    rw [hdata, List.any_eq_true]
    exact ⟨e, he, by rw [Bool.and_eq_true, beq_iff_eq, beq_iff_eq]; exact ⟨h1, h2⟩⟩

theorem builder_queries_filter
    (builderResp : String → Except Unit (List RelayBuilderValidator)) :
    ∀ urls : List String,
      (urls.flatMap (fun url =>
        match builderResp url with
        | .error _ => [Event.builderQuery url,
                       .printLine ("⚠️ Cannot contact relay " ++ url)]
        | .ok _ => [Event.builderQuery url])).filter
        (fun e => match e with | .builderQuery _ => true | _ => false) =
        urls.map (fun url => Event.builderQuery url) := by
  intro urls
  induction urls with
  | nil => rfl
  | cons url rest ih =>
    rw [List.flatMap_cons, List.filter_append, ih]
    cases hres : builderResp url with
    | error er => simp [hres]
    | ok data => simp [hres]

/-- Claim C5: `check_validator_registration_for_slots` returns exactly the
input proposer duties whose `(slot, pubkey)` pair is listed by no
configured relay's `/relay/v1/builder/validators` response; each relay is
queried once per call (one `builderQuery` per configured relay, not per
slot), and a relay whose retries are exhausted (`RetryError`) is logged
and skipped, contributing no registrations, without aborting the check. -/
theorem c5_registration_check
    (urls : List String)
    (builderResp : String → Except Unit (List RelayBuilderValidator))
    (props : List ProposerDuty)
    (hnd : (props.map (fun d => d.slot)).Nodup) :
    (check_validator_registration_for_slots urls builderResp props).1 =
      props.filter (fun d => !(listedByAnyRelay urls builderResp d)) ∧
    (props.length ≠ 0 →
      (check_validator_registration_for_slots urls builderResp props).2.filter
        (fun e => match e with | .builderQuery _ => true | _ => false) =
        urls.map (fun url => Event.builderQuery url)) ∧
    (props.length ≠ 0 → ∀ url ∈ urls, ∀ er, builderResp url = .error er →
      Event.printLine ("⚠️ Cannot contact relay " ++ url) ∈
        (check_validator_registration_for_slots urls builderResp props).2) := by
  by_cases hlen : props.length = 0
  · rw [List.length_eq_zero] at hlen
    subst hlen
    refine ⟨?_, fun h => absurd rfl h, fun h => absurd rfl h⟩
    rw [check_validator_registration_for_slots]
    simp
  · have hprops : check_validator_registration_for_slots urls builderResp props =
        (props.filter (fun item =>
          (regRelayLoop builderResp (buildSlotPubkeys props (fun _ => none)) urls
            (buildRegistrations props (fun _ => none)) []).1 item.slot = some false),
         (regRelayLoop builderResp (buildSlotPubkeys props (fun _ => none)) urls
            (buildRegistrations props (fun _ => none)) []).2) := by
      rw [check_validator_registration_for_slots, if_neg hlen]
    refine ⟨?_, ?_, ?_⟩
    · rw [hprops]
      dsimp only
      apply List.filter_congr
      intro d hd
      have hrs : buildRegistrations props (fun _ => none) d.slot = some false := by
        rw [buildRegistrations_lookup, if_pos (List.mem_map_of_mem _ hd)]
      have hsome : ((regRelayLoop builderResp (buildSlotPubkeys props (fun _ => none))
          urls (buildRegistrations props (fun _ => none)) []).1 d.slot).isSome = true := by
        rw [regRelayLoop_isSome, hrs]
        rfl
      have hpk : buildSlotPubkeys props (fun _ => none) d.slot = some d.pubkey :=
        buildSlotPubkeys_mem props _ d hd hnd
      have htrue : ((regRelayLoop builderResp (buildSlotPubkeys props (fun _ => none))
          urls (buildRegistrations props (fun _ => none)) []).1 d.slot = some true) ↔
          listedByAnyRelay urls builderResp d = true := by
        rw [regRelayLoop_lookup, listedByAnyRelay_iff]
        constructor
        · rintro (h | ⟨_, u, hu, data, hdata, e, he, hes, hep⟩)
          · rw [hrs] at h
            cases h
          · have hinj := hpk.symm.trans hep
            injection hinj with hinj
            exact ⟨u, hu, data, hdata, e, he, hes, hinj.symm⟩
        · rintro ⟨u, hu, data, hdata, e, he, hes, hep⟩
          refine Or.inr ⟨by rw [hrs]; rfl, u, hu, data, hdata, e, he, hes, ?_⟩
          rw [hpk, hep]
      obtain ⟨b, hb⟩ := Option.isSome_iff_exists.mp hsome
      cases b with
      | false =>
        have hlst : listedByAnyRelay urls builderResp d = false := by
          cases hl : listedByAnyRelay urls builderResp d with
          | false => rfl
          | true =>
            have := htrue.mpr hl
            rw [hb] at this
            cases this
        simp [hb, hlst]
      | true =>
        have hlst : listedByAnyRelay urls builderResp d = true := htrue.mp hb
        simp [hb, hlst]
    · intro _
      rw [hprops]
      dsimp only
      rw [regRelayLoop_events, List.nil_append]
      exact builder_queries_filter builderResp urls
    · intro _ url hu er hres
      rw [hprops]
      dsimp only
      rw [regRelayLoop_events, List.nil_append, List.mem_flatMap]
      exact ⟨url, hu, by simp [hres]⟩

/-- Witness for C5 at a concrete input: duty `(42, "0xaa")` is listed by
relay `r2`, duty `(43, "0xbb")` by no relay, and relay `r1` fails with
`RetryError`; the check returns exactly the unlisted duty. -/
theorem c5_registration_check_witness :
    (check_validator_registration_for_slots ["r1", "r2"]
      (fun url => if url = "r2" then .ok [⟨42, 7, "0xaa"⟩] else .error ())
      [⟨"0xaa", 7, 42⟩, ⟨"0xbb", 8, 43⟩]).1 =
      [⟨"0xaa", 7, 42⟩, ⟨"0xbb", 8, 43⟩].filter
        (fun d => !(listedByAnyRelay ["r1", "r2"]
          (fun url => if url = "r2" then .ok [⟨42, 7, "0xaa"⟩] else .error ()) d)) :=
  (c5_registration_check ["r1", "r2"]
    (fun url => if url = "r2" then .ok [⟨42, 7, "0xaa"⟩] else .error ())
    [⟨"0xaa", 7, 42⟩, ⟨"0xbb", 8, 43⟩] (by decide)).1

/-- Claim C2: for every epoch `≥ 2`, the double-miss event for a watched
pubkey is raised (console message, optional Slack message, per-validator
counter increment) iff the pubkey's validator index is in both the current
dead set and the previous dead set, and the returned set of double-missed
indices equals the intersection of the two sets.  Injectivity of the
index-to-labels assignment on the intersection identifies the pubkey. -/
theorem c2_double_miss_iff
    (dead prev : List Nat) (w : Lim) (epoch : Int) (slackOn : Bool)
    (labels : LabelsMap) (d : VDict) (i : Nat) (v : Validator) (L : Labels)
    (he : 2 ≤ epoch)
    (hw : limGet w (epoch - 1) = some d)
    (hall : ∀ j ∈ dead.inter prev, ∃ vj, alookup d j = some vj ∧
      ∃ Lj, alookup labels vj.pubkey = some Lj)
    (hlab : labels.length > 0)
    (hv : alookup d i = some v)
    (hL : alookup labels v.pubkey = some L)
    (hinj : ∀ j ∈ dead.inter prev, ∀ vj, alookup d j = some vj →
      alookup labels vj.pubkey = some L → j = i) :
    ∃ evs,
      process_double_missed_attestations dead prev w epoch slackOn labels true =
        .ok (dead.inter prev, evs) ∧
      (∀ j : Nat, j ∈ dead.inter prev ↔ (j ∈ dead ∧ j ∈ prev)) ∧
      ((Event.counterInc "double_missed_attestations_per_validator_count" L 1 ∈ evs)
        ↔ i ∈ dead.inter prev) ∧
      ((∃ m, Event.printLine m ∈ evs) ↔ dead.inter prev ≠ []) ∧
      (slackOn = false → ∀ m, Event.slackMessage m ∉ evs) ∧
      (dead.inter prev ≠ [] → slackOn = true → ∃ m, Event.slackMessage m ∈ evs) := by
  have h2 : ¬ epoch < 2 := not_lt.mpr he
  by_cases hemp : dead.inter prev = []
  · refine ⟨[.gaugeSet "double_missed_attestations_count"
      ((dead.inter prev).length : ℚ)], ?_, fun j => List.mem_inter_iff, ?_, ?_, ?_, ?_⟩
    · rw [process_double_missed_attestations, if_neg h2]
      rw [if_pos hemp, hemp]
    · rw [hemp]
      simp
    · rw [hemp]
      simp
    · intro _ m
      simp
    · intro h
      exact absurd hemp h
  · obtain ⟨pubkeys, hpk0, hf2⟩ := exMapList_ok_of_forall
      (fun j => match alookup d j with
        | some vv => .ok vv.pubkey
        | none => .error .keyError)
      (dead.inter prev)
      (fun j hj => by
        obtain ⟨vj, hvj, _⟩ := hall j hj
        exact ⟨vj.pubkey, by simp only [hvj]⟩)
    have hpk : lookupPubkeys d (dead.inter prev) = .ok pubkeys := hpk0
    obtain ⟨ls, hls0, hf2L⟩ := exMapList_ok_of_forall
      (fun pk => exceptOfOption (alookup labels pk) .keyError) pubkeys
      (fun pk hpkm => by
        obtain ⟨j, hj, hfj⟩ := forall2_mem_right hf2 pk hpkm
        obtain ⟨vj, hvj, Lj, hLj⟩ := hall j hj
        simp only [hvj, Except.ok.injEq] at hfj
        subst hfj
        exact ⟨Lj, exceptOfOption_eq_ok.mpr hLj⟩)
    have hls : lookupLabelsList labels pubkeys = .ok ls := hls0
    have hcond : (true = true ∧ labels.length > 0) := ⟨rfl, hlab⟩
    have hres : process_double_missed_attestations dead prev w epoch slackOn labels true =
        .ok (dead.inter prev,
          [Event.gaugeSet "double_missed_attestations_count"
            ((dead.inter prev).length : ℚ)] ++
          [Event.printLine
            ("😱 Our validator " ++ shortPubkeysStr pubkeys ++ " and " ++
             toString (((dead.inter prev).length : Int) -
               min 5 (pubkeys.length : Int)) ++
             " more missed 2 attestations in a row from epoch " ++
             toString (epoch - 2))] ++
          (if slackOn then
            [Event.slackMessage
              ("😱 Our validator `" ++ shortPubkeysStr pubkeys ++ "` and `" ++
               toString (((dead.inter prev).length : Int) -
                 min 5 (pubkeys.length : Int)) ++
               "` more missed 2 attestations in a row from epoch `" ++
               toString (epoch - 2) ++ "`")]
           else []) ++
          ls.map (fun l =>
            Event.counterInc "double_missed_attestations_per_validator_count" l 1)) := by
      rw [process_double_missed_attestations, if_neg h2]
      rw [if_neg hemp, hw]
      dsimp only
      rw [hpk]
      dsimp only
      rw [if_pos hcond, hls]
    refine ⟨_, hres, fun j => List.mem_inter_iff, ?_, ?_, ?_, ?_⟩
    · constructor
      · intro hmem
        simp only [List.mem_append, List.mem_singleton] at hmem
        rcases hmem with ((h | h) | h) | h
        · cases h
        · cases h
        · rcases hsl : slackOn with _ | _ <;> rw [hsl] at h <;> simp at h
        · rw [List.mem_map] at h
          obtain ⟨Lj, hLj, hLeq⟩ := h
          have hLL : Lj = L := by injection hLeq
          subst hLL
          obtain ⟨pk, hpkm, hfpk⟩ := forall2_mem_right hf2L Lj hLj
          obtain ⟨j, hj, hfj⟩ := forall2_mem_right hf2 pk hpkm
          have hlook : alookup labels pk = some Lj := exceptOfOption_eq_ok.mp hfpk
          cases hvd : alookup d j with
          | none => rw [hvd] at hfj; cases hfj
          | some vj =>
            rw [hvd] at hfj
            simp only [Except.ok.injEq] at hfj
            subst hfj
            have := hinj j hj vj hvd hlook
            subst this
            exact hj
      · intro hmem
        obtain ⟨pk, hpkm, hfpk⟩ := forall2_mem_left hf2 i hmem
        cases hvd : alookup d i with
        | none => rw [hvd] at hv; cases hv
        | some vi =>
          rw [hvd] at hfpk
          simp only [Except.ok.injEq] at hfpk
          subst hfpk
          have hvv : vi = v := by rw [hvd] at hv; injection hv
          subst hvv
          obtain ⟨Lj, hLjm, hfL⟩ := forall2_mem_left hf2L vi.pubkey hpkm
          have hfL2 : alookup labels vi.pubkey = some Lj := exceptOfOption_eq_ok.mp hfL
          rw [hL] at hfL2
          have hLL : Lj = L := by injection hfL2 with hh; exact hh.symm
          subst hLL
          apply List.mem_append_right
          rw [List.mem_map]
          exact ⟨Lj, hLjm, rfl⟩
    · constructor
      · intro _
        exact hemp
      · intro _
        exact ⟨_, by
          apply List.mem_append_left
          apply List.mem_append_left
          apply List.mem_append_right
          exact List.mem_singleton_self _⟩
    · intro hsl m
      subst hsl
      simp
    · intro _ hsl
      subst hsl
      exact ⟨_, by
        apply List.mem_append_left
        apply List.mem_append_right
        rw [if_pos rfl]
        exact List.mem_singleton_self _⟩

/-- Witness for C2 at a concrete input: index 42 missed both epoch 0 and
epoch 1, so at epoch 2 the double-miss set is the intersection and the
per-validator counter for its pubkey is incremented. -/
theorem c2_double_miss_iff_witness :
    ∃ evs,
      process_double_missed_attestations [42] [42]
        [(1, [(42, ⟨"0xaabbccddeeff", 32000000000, false⟩)])] 2 true
        [("0xaabbccddeeff", [("name", "v1")])] true =
        .ok (([42] : List Nat).inter [42], evs) ∧
      Event.counterInc "double_missed_attestations_per_validator_count"
        [("name", "v1")] 1 ∈ evs := by
  obtain ⟨evs, h1, _, h3, _⟩ := c2_double_miss_iff [42] [42]
    [(1, [(42, ⟨"0xaabbccddeeff", 32000000000, false⟩)])] 2 true
    [("0xaabbccddeeff", [("name", "v1")])]
    [(42, ⟨"0xaabbccddeeff", 32000000000, false⟩)] 42
    ⟨"0xaabbccddeeff", 32000000000, false⟩ [("name", "v1")]
    (by decide) (by decide)
    (fun j hj => by
      have hj42 : j = 42 := by
        have hj2 := List.mem_inter_iff.mp hj
        simpa using hj2.1
      subst hj42
      exact ⟨⟨"0xaabbccddeeff", 32000000000, false⟩, by decide,
             [("name", "v1")], by decide⟩)
    (by decide) (by decide) (by decide)
    (fun j hj vj hvj hLv => by
      have hj2 := List.mem_inter_iff.mp hj
      simpa using hj2.1)
  exact ⟨evs, h1, h3.mpr (by decide)⟩

theorem epoch_le_of_slot_le {a b : Int} (h : a ≤ b) :
    a / NB_SLOT_PER_EPOCH ≤ b / NB_SLOT_PER_EPOCH :=
  Int.ediv_le_ediv (by decide) h

theorem missed_att_gate_iff (s : Int) (lastE : Option Int) :
    missed_att_gate s lastE = true ↔
      SLOT_FOR_MISSED_ATTESTATIONS_PROCESS ≤ s % NB_SLOT_PER_EPOCH ∧
      (lastE = none ∨ lastE ≠ some (s / NB_SLOT_PER_EPOCH)) := by
  rw [missed_att_gate]
  cases lastE with
  | none => simp
  | some e => simp [beq_iff_eq]

theorem missed_att_runs_gating :
    ∀ (slots : List Int) (lastE : Option Int),
      List.Sorted (· ≤ ·) slots →
      (∀ e, lastE = some e → ∀ s ∈ slots, e ≤ s / NB_SLOT_PER_EPOCH) →
      List.Sorted (· < ·)
        ((missed_att_runs slots lastE).map (fun s => s / NB_SLOT_PER_EPOCH)) ∧
      (∀ r ∈ missed_att_runs slots lastE,
        SLOT_FOR_MISSED_ATTESTATIONS_PROCESS ≤ r % NB_SLOT_PER_EPOCH ∧ r ∈ slots) ∧
      (∀ e, lastE = some e → ∀ r ∈ missed_att_runs slots lastE,
        e < r / NB_SLOT_PER_EPOCH) := by
  intro slots
  induction slots with
  | nil =>
    intro lastE _ _
    exact ⟨List.sorted_nil, fun r hr => absurd hr (List.not_mem_nil r),
           fun e _ r hr => absurd hr (List.not_mem_nil r)⟩
  | cons s rest ih =>
    intro lastE hsort hle
    rw [List.sorted_cons] at hsort
    obtain ⟨hall, hsorted⟩ := hsort
    rw [missed_att_runs]
    by_cases hg : missed_att_gate s lastE = true
    · rw [if_pos hg]
      obtain ⟨hsip, hne⟩ := (missed_att_gate_iff s lastE).mp hg
      have hnew : ∀ e, some (s / NB_SLOT_PER_EPOCH) = some e →
          ∀ x ∈ rest, e ≤ x / NB_SLOT_PER_EPOCH := by
        intro e he x hx
        injection he with he
        subst he
        exact epoch_le_of_slot_le (hall x hx)
      obtain ⟨ih1, ih2, ih3⟩ := ih (some (s / NB_SLOT_PER_EPOCH)) hsorted hnew
      refine ⟨?_, ?_, ?_⟩
      · rw [List.map_cons, List.sorted_cons]
        refine ⟨?_, ih1⟩
        intro b hb
        rw [List.mem_map] at hb
        obtain ⟨r, hr, rfl⟩ := hb
        exact ih3 _ rfl r hr
      · intro r hr
        rcases List.mem_cons.mp hr with rfl | hr'
        · exact ⟨hsip, List.mem_cons_self _ _⟩
        · obtain ⟨ha, hb⟩ := ih2 r hr'
          exact ⟨ha, List.mem_cons_of_mem _ hb⟩
      · intro e he r hr
        rcases List.mem_cons.mp hr with rfl | hr'
        · have hle1 := hle e he r (List.mem_cons_self _ _)
          have hne1 : e ≠ r / NB_SLOT_PER_EPOCH := by
            rcases hne with hx | hx
            · rw [he] at hx
              cases hx
            · intro hcontra
              apply hx
              rw [he, hcontra]
          exact lt_of_le_of_ne hle1 hne1
        · exact lt_of_le_of_lt (hle e he s (List.mem_cons_self _ _)) (ih3 _ rfl r hr')
    · rw [if_neg hg]
      obtain ⟨ih1, ih2, ih3⟩ := ih lastE hsorted
        (fun e he x hx => hle e he x (List.mem_cons_of_mem _ hx))
      refine ⟨ih1, ?_, ih3⟩
      intro r hr
      obtain ⟨ha, hb⟩ := ih2 r hr
      exact ⟨ha, List.mem_cons_of_mem _ hb⟩

theorem forall2_countP {α β : Type} {R : α → β → Prop} (p : α → Bool) (q : β → Bool) :
    ∀ {l : List α} {l' : List β}, List.Forall₂ R l l' →
      (∀ a b, a ∈ l → R a b → q b = p a) →
      List.countP q l' = List.countP p l := by
  intro l l' h
  induction h with
  | nil => intro _; rfl
  | @cons a b l1 l2 hab htl ih =>
    intro hpq
    rw [List.countP_cons, List.countP_cons,
        ih (fun x y hx hr => hpq x y (List.mem_cons_of_mem _ hx) hr),
        hpq a b (List.mem_cons_self _ _) hab]

/-- Claim C3: the missed-attestations probe is gated to run at most once
per epoch — over any monotone slot trace the epochs of the gate's firing
slots are strictly increasing (hence distinct) and every firing slot has
`slot_in_epoch ≥ SLOT_FOR_MISSED_ATTESTATIONS_PROCESS` (= 16) — and within
one run each dead index produces exactly one increment of the
per-validator missed-attestations counter: the counter for a watched
pubkey is incremented exactly once when its index is reported dead, and
not at all otherwise. -/
theorem c3_missed_attestation_counter_once_per_epoch :
    (∀ slots : List Int, List.Sorted (· ≤ ·) slots →
      ((missed_att_runs slots none).map (fun s => s / NB_SLOT_PER_EPOCH)).Nodup ∧
      (∀ r ∈ missed_att_runs slots none,
        SLOT_FOR_MISSED_ATTESTATIONS_PROCESS ≤ r % NB_SLOT_PER_EPOCH)) ∧
    (∀ (liveness : Int → List Nat → List (Nat × Bool)) (w : Lim) (epoch : Int)
        (labels : LabelsMap) (d : VDict) (dead : List Nat) (i : Nat)
        (v : Validator) (L : Labels),
      1 ≤ epoch →
      limGet w (epoch - 1) = some d →
      dead = (((liveness (epoch - 1) (d.map Prod.fst)).filter
        (fun q => q.2 = false)).map Prod.fst).dedup →
      (∀ j ∈ dead, ∃ vj, alookup d j = some vj ∧
        (alookup labels vj.pubkey).isSome = true) →
      labels.length > 0 →
      alookup d i = some v →
      alookup labels v.pubkey = some L →
      (∀ j ∈ dead, ∀ vj, alookup d j = some vj →
        alookup labels vj.pubkey = some L → j = i) →
      ∃ evs, process_missed_attestations liveness w epoch labels true =
          .ok (dead, evs) ∧
        evs.count (Event.counterInc "missed_attestations_per_validator_count" L 1) =
          (if i ∈ dead then 1 else 0)) := by
  constructor
  · intro slots hsort
    obtain ⟨h1, h2, _⟩ := missed_att_runs_gating slots none hsort
      (fun e he => by cases he)
    exact ⟨h1.nodup, fun r hr => (h2 r hr).1⟩
  · intro liveness w epoch labels d dead i v L hep hw hdead hall hlab hv hL hinj
    have h1 : ¬ epoch < 1 := not_lt.mpr hep
    have hnodup : dead.Nodup := by
      rw [hdead]
      exact List.nodup_dedup _
    by_cases hemp : dead = []
    · refine ⟨[.livenessQuery (epoch - 1) (d.map Prod.fst),
        .gaugeSet "missed_attestations_count" ((dead.length : ℚ))], ?_, ?_⟩
      · rw [process_missed_attestations, if_neg h1, hw]
        dsimp only
        rw [← hdead, if_pos hemp, hemp]
      · rw [hemp]
        simp
    · obtain ⟨pubkeys, hpk0, hf2⟩ := exMapList_ok_of_forall
        (fun j => match alookup d j with
          | some vv => .ok vv.pubkey
          | none => .error .keyError)
        dead
        (fun j hj => by
          obtain ⟨vj, hvj, _⟩ := hall j hj
          exact ⟨vj.pubkey, by simp only [hvj]⟩)
      have hpk : lookupPubkeys d dead = .ok pubkeys := hpk0
      obtain ⟨ls, hls0, hf2L⟩ := exMapList_ok_of_forall
        (fun pk => exceptOfOption (alookup labels pk) .keyError) pubkeys
        (fun pk hpkm => by
          obtain ⟨j, hj, hfj⟩ := forall2_mem_right hf2 pk hpkm
          obtain ⟨vj, hvj, hLs⟩ := hall j hj
          simp only [hvj, Except.ok.injEq] at hfj
          subst hfj
          obtain ⟨Lj, hLj⟩ := Option.isSome_iff_exists.mp hLs
          exact ⟨Lj, exceptOfOption_eq_ok.mpr hLj⟩)
      have hls : lookupLabelsList labels pubkeys = .ok ls := hls0
      have hres : process_missed_attestations liveness w epoch labels true =
          .ok (dead,
            [Event.livenessQuery (epoch - 1) (d.map Prod.fst),
             Event.gaugeSet "missed_attestations_count" ((dead.length : ℚ))] ++
            [Event.printLine
              ("🙁 Our validator " ++ shortPubkeysStr pubkeys ++ " and " ++
               toString ((dead.length : Int) - min 5 (pubkeys.length : Int)) ++
               " more missed attestation at epoch " ++ toString (epoch - 1))] ++
            ls.map (fun l =>
              Event.counterInc "missed_attestations_per_validator_count" l 1)) := by
        rw [process_missed_attestations, if_neg h1, hw]
        dsimp only
        rw [← hdead, if_neg hemp, hpk]
        dsimp only
        rw [if_pos ⟨rfl, hlab⟩, hls]
      refine ⟨_, hres, ?_⟩
      rw [List.count_append, List.count_append]
      have hz1 : List.count
          (Event.counterInc "missed_attestations_per_validator_count" L 1)
          [Event.livenessQuery (epoch - 1) (d.map Prod.fst),
           Event.gaugeSet "missed_attestations_count" ((dead.length : ℚ))] = 0 := by
        rw [List.count_eq_zero]
        simp
      have hz2 : List.count
          (Event.counterInc "missed_attestations_per_validator_count" L 1)
          [Event.printLine
            ("🙁 Our validator " ++ shortPubkeysStr pubkeys ++ " and " ++
             toString ((dead.length : Int) - min 5 (pubkeys.length : Int)) ++
             " more missed attestation at epoch " ++ toString (epoch - 1))] = 0 := by
        rw [List.count_eq_zero]
        simp
      rw [hz1, hz2]
      have hmap : List.count
          (Event.counterInc "missed_attestations_per_validator_count" L 1)
          (ls.map (fun l =>
            Event.counterInc "missed_attestations_per_validator_count" l 1)) =
          List.countP (fun j =>
            match alookup d j with
            | some vj => alookup labels vj.pubkey == some L
            | none => false) dead := by
        rw [List.count_eq_countP, List.countP_map]
        rw [forall2_countP
          (fun pk => alookup labels pk == some L)
          (fun Lj => ((fun x =>
            x == Event.counterInc "missed_attestations_per_validator_count" L 1) ∘
            (fun l =>
              Event.counterInc "missed_attestations_per_validator_count" l 1)) Lj)
          hf2L ?hqL]
        case hqL =>
          intro pk Lj _ hR
          have hlk : alookup labels pk = some Lj := exceptOfOption_eq_ok.mp hR
          by_cases hLL : Lj = L
          · subst hLL
            simp [hlk]
          · simp [hlk, hLL]
        rw [forall2_countP
          (fun j =>
            match alookup d j with
            | some vj => alookup labels vj.pubkey == some L
            | none => false)
          (fun pk => alookup labels pk == some L)
          hf2 ?hqP]
        case hqP =>
          intro j pk _ hR
          cases hvd : alookup d j with
          | none => rw [hvd] at hR; cases hR
          | some vj =>
            simp only [hvd, Except.ok.injEq] at hR
            subst hR
            simp [hvd]
      rw [hmap]
      have hcongr : List.countP (fun j =>
          match alookup d j with
          | some vj => alookup labels vj.pubkey == some L
          | none => false) dead = List.count i dead := by
        rw [List.count_eq_countP]
        apply List.countP_congr
        intro j hj
        constructor
        · intro hp
          cases hvd : alookup d j with
          | none => rw [hvd] at hp; cases hp
          | some vj =>
            rw [hvd] at hp
            have hlj : alookup labels vj.pubkey = some L := by
              rw [← beq_iff_eq]
              exact hp
            have := hinj j hj vj hvd hlj
            subst this
            simp
        · intro hp
          have hji : j = i := by simpa using hp
          subst hji
          simp [hv, hL]
      rw [hcongr]
      by_cases him : i ∈ dead
      · rw [if_pos him, List.count_eq_one_of_mem hnodup him]
      · rw [if_neg him, List.count_eq_zero.mpr him]

/-- Witness for C3: part (a) at the slot trace `[47, 48, 49, 80]` (the gate
fires at 48 and at 80, in distinct epochs, both with `slot_in_epoch ≥ 16`);
part (b) at a concrete epoch-1 probe run where index 42 is dead and its
counter is incremented exactly once. -/
theorem c3_missed_attestation_counter_once_per_epoch_witness :
    (((missed_att_runs [47, 48, 49, 80] none).map
        (fun s => s / NB_SLOT_PER_EPOCH)).Nodup) ∧
    (∃ evs, process_missed_attestations (fun _ _ => [(42, false)])
        [(0, [(42, ⟨"0xaabbccddeeff", 32000000000, false⟩)])] 1
        [("0xaabbccddeeff", [("name", "v1")])] true =
        .ok ([42], evs) ∧
      evs.count (Event.counterInc "missed_attestations_per_validator_count"
        [("name", "v1")] 1) = 1) := by
  constructor
  · exact (c3_missed_attestation_counter_once_per_epoch.1 [47, 48, 49, 80]
      (by decide)).1
  · obtain ⟨evs, h1, h2⟩ := c3_missed_attestation_counter_once_per_epoch.2
      (fun _ _ => [(42, false)])
      [(0, [(42, ⟨"0xaabbccddeeff", 32000000000, false⟩)])] 1
      [("0xaabbccddeeff", [("name", "v1")])]
      [(42, ⟨"0xaabbccddeeff", 32000000000, false⟩)] [42] 42
      ⟨"0xaabbccddeeff", 32000000000, false⟩ [("name", "v1")]
      (by decide) (by decide) (by decide)
      (fun j hj => by
        have hj42 : j = 42 := by simpa using hj
        subst hj42
        exact ⟨⟨"0xaabbccddeeff", 32000000000, false⟩, by decide, by decide⟩)
      (by decide) (by decide) (by decide)
      (fun j hj vj hvj hLv => by simpa using hj)
    refine ⟨evs, h1, ?_⟩
    rw [h2, if_pos (by decide)]
